import Mathlib

/-!
Shallow embedding of the siemens_thermostat_bacnet BACnet/IP client
(src/siemens_bacnet_connector/bacnet.py and device.py), together with
theorems settling the specification claims.

Modelling conventions:
* Python bytes objects are lists of naturals (each byte in 0..255 on real
  wire data; the embedding itself does not need the bound except where the
  source checks it).
* Python exceptions are an explicit error type PyErr; a raising method
  becomes a function returning an Except value.  The decoder methods
  mutate a cursor, so they return the pair of the Except result and the
  cursor value at the moment of return or raise.
* IEEE-754 payloads (struct format f and d) are kept as their raw
  big-endian byte lists, since Lean has no 32/64-bit float type; a Python
  float passed to pack with format f is represented by its 32 IEEE-754
  bits.  Character strings keep their raw UTF-8 code bytes.
-/

namespace Bacnet

/-- Kinds of Python exceptions the translated code can raise:
DecodingError (defined in bacnet.py), ValueError (from IntEnum
constructors and negative shifts), struct.error (from pack and unpack),
IndexError (from indexing a too-short bytes object). -/
inductive PyErr where
  | decodingError
  | valueError
  | structError
  | indexError
deriving Repr, DecidableEq

/-- Decidable equality for results, used to evaluate concrete runs. -/
instance {ε α : Type} [DecidableEq ε] [DecidableEq α] :
    DecidableEq (Except ε α)
  | .error a, .error b =>
    if h : a = b then .isTrue (by rw [h]) else .isFalse (by simp [h])
  | .error a, .ok b => .isFalse (by simp)
  | .ok a, .error b => .isFalse (by simp)
  | .ok a, .ok b =>
    if h : a = b then .isTrue (by rw [h]) else .isFalse (by simp [h])

/-- ObjectType IntEnum from bacnet.py. -/
inductive ObjectType where
  | ANALOG_INPUT
  | ANALOG_OUTPUT
  | ANALOG_VALUE
  | BINARY_INPUT
  | BINARY_VALUE
  | DEVICE
  | MULTI_STATE_VALUE
  | POSITIVE_INTEGER_VALUE
deriving Repr, DecidableEq

/-- Numeric value of each ObjectType member. -/
def ObjectType.toNat : ObjectType → Nat
  | .ANALOG_INPUT => 0
  | .ANALOG_OUTPUT => 1
  | .ANALOG_VALUE => 2
  | .BINARY_INPUT => 3
  | .BINARY_VALUE => 5
  | .DEVICE => 8
  | .MULTI_STATE_VALUE => 19
  | .POSITIVE_INTEGER_VALUE => 48

/-- The ObjectType IntEnum constructor: ObjectType(n) succeeds exactly on
member values and raises ValueError otherwise. -/
def ObjectType.ofNat? (n : Nat) : Option ObjectType :=
  if n = 0 then some .ANALOG_INPUT
  else if n = 1 then some .ANALOG_OUTPUT
  else if n = 2 then some .ANALOG_VALUE
  else if n = 3 then some .BINARY_INPUT
  else if n = 5 then some .BINARY_VALUE
  else if n = 8 then some .DEVICE
  else if n = 19 then some .MULTI_STATE_VALUE
  else if n = 48 then some .POSITIVE_INTEGER_VALUE
  else none

/-- ReadValue IntEnum from bacnet.py: the property identifiers the client
recognises. -/
inductive ReadValue where
  | DESCRIPTION
  | OBJECT_NAME
  | PRESENT_VALUE
  | PRIORITY_ARRAY
deriving Repr, DecidableEq

/-- Numeric value of each ReadValue member. -/
def ReadValue.toNat : ReadValue → Nat
  | .DESCRIPTION => 28
  | .OBJECT_NAME => 77
  | .PRESENT_VALUE => 85
  | .PRIORITY_ARRAY => 87

/-- The ReadValue IntEnum constructor: ReadValue(n) succeeds exactly on
member values 28, 77, 85, 87 and raises ValueError otherwise. -/
def ReadValue.ofNat? (n : Nat) : Option ReadValue :=
  if n = 28 then some .DESCRIPTION
  else if n = 77 then some .OBJECT_NAME
  else if n = 85 then some .PRESENT_VALUE
  else if n = 87 then some .PRIORITY_ARRAY
  else none

-- Constants from bacnet.py.
def TAG_OBJECT_TYPE_SHIFT : Nat := 22
def TAG_INSTANCE_ID_MASK : Nat := 0x3FFFFF
def TAG_OPEN : Nat := 6
def TAG_CLOSE : Nat := 7
def TAG_NO_PROPERTY_VALUE : Nat := 4
def TAG_NO_PROPERTY_ACCESS_ERROR : Nat := 5
def PROPERTY_ACCESS_ERROR_SIZE : Nat := 4
def PRIORITY_ARRAY_PROPERTY_ID : Nat := 87
def MAX_RESPONSE_SEGMENTS : Nat := 4
def MAX_APDU_SIZE : Nat := 4
def INVOKE_ID : Nat := 1
def BVLC_TYPE : Nat := 0x81
def BVLC_FUNCTION_UNICAST : Nat := 0x0A
def BVLC_LENGTH : Nat := 4

/-- NPDU constant, pack with format BB of version 1 and control 4. -/
def NPDU : List Nat := [1, 4]

/-- The four big-endian bytes produced by struct.pack with format I
(for arguments below two to the 32, which pack requires). -/
def u32be (n : Nat) : List Nat :=
  [n / 2 ^ 24 % 256, n / 2 ^ 16 % 256, n / 2 ^ 8 % 256, n % 256]

/-- struct.pack with format B: one byte, raising struct.error when the
argument does not fit. -/
def pack_u8 (n : Nat) : Except PyErr (List Nat) :=
  if n < 256 then .ok [n] else .error .structError

/-- struct.pack with format I: four big-endian bytes, raising struct.error
when the argument does not fit in 32 bits. -/
def pack_u32 (n : Nat) : Except PyErr (List Nat) :=
  if n < 2 ^ 32 then .ok (u32be n) else .error .structError

/-- struct.pack with format H: two big-endian bytes, raising struct.error
when the argument does not fit in 16 bits. -/
def pack_u16 (n : Nat) : Except PyErr (List Nat) :=
  if n < 2 ^ 16 then .ok [n / 2 ^ 8 % 256, n % 256] else .error .structError

/-- struct.unpack with format I applied to a bytes object: requires
exactly four bytes (else struct.error) and yields the big-endian word. -/
def unpack_u32 (bs : List Nat) : Except PyErr Nat :=
  match bs with
  | [b0, b1, b2, b3] => .ok (((b0 * 256 + b1) * 256 + b2) * 256 + b3)
  | _ => .error .structError

/-- Tag.int from bacnet.py: number shifted left 4, context bit, length
or type bits. -/
def tagInt (number : Nat) (is_context : Bool) (length_type : Nat) : Nat :=
  number <<< 4 ||| (if is_context then 8 else 0) ||| length_type

/-- CtxTag(number, lt).int. -/
def ctxTagInt (number length_type : Nat) : Nat := tagInt number true length_type

/-- AppTag(number, lt).int. -/
def appTagInt (number length_type : Nat) : Nat := tagInt number false length_type

/-- DeviceProperty from bacnet.py (the fields used by the encoders;
read_values defaults to the singleton PRESENT_VALUE at construction). -/
structure DeviceProperty where
  object_type : ObjectType
  instance_id : Nat
  read_values : List ReadValue
  priority : Option Nat
deriving Repr, DecidableEq

/-- The 32-bit object-identifier word written by apdu_object_identifier:
object_type shifted left by TAG_OBJECT_TYPE_SHIFT, or-ed with the
instance id (the source applies no mask). -/
def oidWord (dp : DeviceProperty) : Nat :=
  dp.object_type.toNat <<< TAG_OBJECT_TYPE_SHIFT ||| dp.instance_id

/-- DeviceProperty.apdu_object_identifier: context tag 0 with length 4,
then pack format I of the object-identifier word. -/
def apdu_object_identifier (dp : DeviceProperty) : Except PyErr (List Nat) :=
  match pack_u32 (oidWord dp) with
  | .error e => .error e
  | .ok word => .ok ([ctxTagInt 0 4] ++ word)

/-- DeviceProperty.read_access_spec: object identifier, context tag 1
open, one context tag 0 length 1 plus property byte per requested value,
context tag 1 close. -/
def read_access_spec (dp : DeviceProperty) : Except PyErr (List Nat) :=
  match apdu_object_identifier dp with
  | .error e => .error e
  | .ok oid => .ok (oid ++ [ctxTagInt 1 TAG_OPEN]
      ++ (dp.read_values.flatMap fun rv => [ctxTagInt 0 1, rv.toNat])
      ++ [ctxTagInt 1 TAG_CLOSE])

/-- The Python write value: None, or a float given by its 32 IEEE-754
bits (ANALOG_VALUE objects), or a small integer (other objects). -/
abbrev WriteValue := Option Nat

/-- DeviceProperty.write_access_spec: object identifier, context tag 1
length 1 with PRESENT_VALUE, context tag 3 open, the application-tagged
primitive selected by the value and the object type, context tag 3 close,
and, when priority is set, context tag 4 length 1 with the priority
byte.  For ANALOG_VALUE the argument of pack with format f is a float,
represented here by its 32 bits; for the other object types pack with
format B requires the value to fit in one byte. -/
def write_access_spec (dp : DeviceProperty) (value : WriteValue) :
    Except PyErr (List Nat) :=
  match apdu_object_identifier dp with
  | .error e => .error e
  | .ok oid =>
    let head := oid ++ [ctxTagInt 1 1, ReadValue.PRESENT_VALUE.toNat]
      ++ [ctxTagInt 3 TAG_OPEN]
    let primE : Except PyErr (List Nat) :=
      match value with
      | Option.none => .ok [appTagInt 0 0]
      | some v =>
        if dp.object_type = ObjectType.ANALOG_VALUE then
          .ok ([appTagInt 4 4] ++ u32be v)
        else if dp.object_type = ObjectType.BINARY_VALUE then
          match pack_u8 v with
          | .error e => .error e
          | .ok b => .ok ([appTagInt 9 1] ++ b)
        else
          match pack_u8 v with
          | .error e => .error e
          | .ok b => .ok ([appTagInt 2 1] ++ b)
    match primE with
    | .error e => .error e
    | .ok prim =>
      match dp.priority with
      | Option.none => .ok (head ++ prim ++ [ctxTagInt 3 TAG_CLOSE])
      | some p =>
        match pack_u8 p with
        | .error e => .error e
        | .ok b =>
          .ok (head ++ prim ++ [ctxTagInt 3 TAG_CLOSE] ++ ([ctxTagInt 4 1] ++ b))

/-- The fixed four APDU header bytes of a confirmed ReadPropertyMultiple
request: flags, max-segments and max-APDU nibble pair, invoke id,
service choice 14. -/
def rpmHeader : List Nat :=
  [0 <<< 4 ||| 2, MAX_RESPONSE_SEGMENTS <<< 4 ||| MAX_APDU_SIZE,
    INVOKE_ID, 14]

/-- Helper: concatenate the read access specs of all descriptors. -/
def rpmSpecs : List DeviceProperty → Except PyErr (List Nat)
  | [] => .ok []
  | dp :: rest =>
    match read_access_spec dp with
    | .error e => .error e
    | .ok s =>
      match rpmSpecs rest with
      | .error e => .error e
      | .ok r => .ok (s ++ r)

/-- The function _read_property_multiple: APDU header, per-descriptor
read access specs, prefixed by the BVLC header (pack with format BBH,
so the length field must fit in 16 bits) and the NPDU. -/
def _read_property_multiple (device_properties : List DeviceProperty) :
    Except PyErr (List Nat) :=
  match rpmSpecs device_properties with
  | .error e => .error e
  | .ok specs =>
    let apdu := rpmHeader ++ specs
    match pack_u16 (BVLC_LENGTH + NPDU.length + apdu.length) with
    | .error e => .error e
    | .ok lenField =>
      .ok ([BVLC_TYPE, BVLC_FUNCTION_UNICAST] ++ lenField ++ NPDU ++ apdu)

/-- The decoded Python values produced by BACnetDecoder: None, bool,
int (unsigned, signed and enumerated primitives all yield Python ints,
and the placeholder initial value of read_value is the int 0), float
and double payloads kept as raw bytes, character strings kept as raw
UTF-8 code bytes, application object identifiers, the unknown-tag
fallback dict, and priority-array lists. -/
inductive Val where
  | null
  | bool (b : Bool)
  | int (n : Int)
  | real (raw : List Nat)
  | double (raw : List Nat)
  | str (raw : List Nat)
  | objectId (ot : ObjectType) (instance_number : Nat)
  | unknown (tag : Nat) (raw : List Nat)
  | priorityArray (vs : List Val)
deriving Repr

/-- The result of one decoder method: the returned value or the raised
exception, together with the cursor at that moment (Python exceptions
leave the mutated cursor in place). -/
abbrev DecRes (α : Type) := Except PyErr α × Nat

/-- BACnetDecoder.read_byte: raise DecodingError past the end of the
buffer, otherwise return the byte and advance by one. -/
def read_byte (data : List Nat) (i : Nat) : DecRes Nat :=
  if i + 1 > data.length then (.error .decodingError, i)
  else (.ok (data.getD i 0), i + 1)

/-- BACnetDecoder.read_bytes: raise DecodingError when the requested
slice would run past the end, otherwise return the slice and set the
cursor to i + n.  The count is an integer because parse_string calls
read_bytes with length - 1, which is -1 for a zero-length string; a
Python slice with stop below start is empty, and the cursor then moves
backward.  (The toNat clamp differs from Python only when i + n would be
negative, which no call site can produce since every negative count
follows a successful read_byte.) -/
def read_bytes (data : List Nat) (n : Int) (i : Nat) : DecRes (List Nat) :=
  if (i : Int) + n > (data.length : Int) then (.error .decodingError, i)
  else (.ok ((data.drop i).take n.toNat), ((i : Int) + n).toNat)

/-- BACnetDecoder.read_tag: split the tag byte into number, class and
length or type bits; when the latter are 5 the real length is the next
byte. -/
def read_tag (data : List Nat) (i : Nat) : DecRes (Nat × Nat × Nat) :=
  match read_byte data i with
  | (.error e, i1) => (.error e, i1)
  | (.ok byte, i1) =>
    -- tag number, tag class, tag type or length
    if byte &&& 7 = 5 then
      match read_byte data i1 with
      | (.error e, i2) => (.error e, i2)
      | (.ok ext, i2) => (.ok (byte >>> 4, (byte >>> 3) &&& 1, ext), i2)
    else (.ok (byte >>> 4, (byte >>> 3) &&& 1, byte &&& 7), i1)

/-- BACnetDecoder.peek_tag: run read_tag and restore the saved cursor in
all cases, returning the tag or re-raising. -/
def peek_tag (data : List Nat) (i : Nat) : DecRes (Nat × Nat × Nat) :=
  ((read_tag data i).1, i)

/-- BACnetDecoder.read_context_tag: read_tag, then require class 1. -/
def read_context_tag (data : List Nat) (i : Nat) : DecRes (Nat × Nat) :=
  match read_tag data i with
  | (.error e, i1) => (.error e, i1)
  | (.ok (tag_number, tag_class, tag_type_length), i1) =>
    if tag_class ≠ 1 then (.error .decodingError, i1)
    else (.ok (tag_number, tag_type_length), i1)

/-- BACnetDecoder.read_application_tag: read_tag, then require class 0. -/
def read_application_tag (data : List Nat) (i : Nat) : DecRes (Nat × Nat) :=
  match read_tag data i with
  | (.error e, i1) => (.error e, i1)
  | (.ok (tag_number, tag_class, tag_type_length), i1) =>
    if tag_class ≠ 0 then (.error .decodingError, i1)
    else (.ok (tag_number, tag_type_length), i1)

/-- BACnetDecoder.parse_object_identifier: context tag with number 0,
then unpack format I of tag_length bytes, then the ObjectType enum
constructor on the upper bits and the 22-bit mask on the lower. -/
def parse_object_identifier (data : List Nat) (i : Nat) :
    DecRes (ObjectType × Nat) :=
  match read_context_tag data i with
  | (.error e, i1) => (.error e, i1)
  | (.ok (tag_number, tag_length), i1) =>
    if tag_number ≠ 0 then (.error .decodingError, i1)
    else match read_bytes data (tag_length : Int) i1 with
      | (.error e, i2) => (.error e, i2)
      | (.ok bs, i2) =>
        match unpack_u32 bs with
        | .error e => (.error e, i2)
        | .ok w =>
          match ObjectType.ofNat? (w >>> TAG_OBJECT_TYPE_SHIFT) with
          | Option.none => (.error .valueError, i2)
          | some object_type => (.ok (object_type, w &&& 0x3FFFFF), i2)

/-- Loop shared by parse_enumarated_value and parse_unsinged_int: fold
big-endian bytes into a value, one read_byte per step. -/
def parse_uint_loop (data : List Nat) : Nat → Nat → Nat → DecRes Nat
  | 0, value, i => (.ok value, i)
  | len + 1, value, i =>
    match read_byte data i with
    | (.error e, i1) => (.error e, i1)
    | (.ok b, i1) => parse_uint_loop data len (value <<< 8 ||| b) i1

/-- BACnetDecoder.parse_enumarated_value (name as in the source). -/
def parse_enumarated_value (data : List Nat) (length : Nat) (i : Nat) :
    DecRes Nat :=
  parse_uint_loop data length 0 i

/-- BACnetDecoder.parse_unsinged_int (name as in the source). -/
def parse_unsinged_int (data : List Nat) (length : Nat) (i : Nat) :
    DecRes Nat :=
  parse_uint_loop data length 0 i

/-- Big-endian unsigned value of a byte list, as int.from_bytes. -/
def beVal (bs : List Nat) : Nat := bs.foldl (fun acc b => acc * 256 + b) 0

/-- BACnetDecoder.parse_signed_int: read the bytes, then interpret as
big-endian two's complement.  For length 0 the sign-bit computation
1 shifted left by length * 8 - 1 is a shift by -1, which raises
ValueError in Python (after the read has already advanced the cursor). -/
def parse_signed_int (data : List Nat) (length : Nat) (i : Nat) :
    DecRes Int :=
  match read_bytes data (length : Int) i with
  | (.error e, i1) => (.error e, i1)
  | (.ok bs, i1) =>
    if length = 0 then (.error .valueError, i1)
    else
      let raw := beVal bs
      if raw &&& (1 <<< (length * 8 - 1)) ≠ 0 then
        (.ok ((raw : Int) - 2 ^ (length * 8)), i1)
      else (.ok (raw : Int), i1)

/-- BACnetDecoder.parse_float: the length must be 4, then the four
payload bytes are returned (IEEE-754 f32 big-endian bit pattern). -/
def parse_float (data : List Nat) (length : Nat) (i : Nat) :
    DecRes (List Nat) :=
  if length ≠ 4 then (.error .decodingError, i)
  else read_bytes data (length : Int) i

/-- BACnetDecoder.parse_double: the length must be 8, then the eight
payload bytes are returned (IEEE-754 f64 big-endian bit pattern). -/
def parse_double (data : List Nat) (length : Nat) (i : Nat) :
    DecRes (List Nat) :=
  if length ≠ 8 then (.error .decodingError, i)
  else read_bytes data (length : Int) i

/-- BACnetDecoder.parse_string: the first byte is the character-set
marker and must be 0, the remaining length - 1 bytes are the UTF-8 code
bytes (kept raw here).  For length 0 the second read is read_bytes of
-1, which returns the empty slice and moves the cursor back one byte. -/
def parse_string (data : List Nat) (length : Nat) (i : Nat) :
    DecRes (List Nat) :=
  match read_byte data i with
  | (.error e, i1) => (.error e, i1)
  | (.ok encoding, i1) =>
    if encoding ≠ 0 then (.error .decodingError, i1)
    else read_bytes data ((length : Int) - 1) i1

/-- BACnetDecoder.parse_application_object_identifier: the length must
be 4, then as parse_object_identifier without the context tag. -/
def parse_application_object_identifier (data : List Nat) (length : Nat)
    (i : Nat) : DecRes (ObjectType × Nat) :=
  if length ≠ 4 then (.error .decodingError, i)
  else match read_bytes data (length : Int) i with
    | (.error e, i1) => (.error e, i1)
    | (.ok bs, i1) =>
      match unpack_u32 bs with
      | .error e => (.error e, i1)
      | .ok w =>
        match ObjectType.ofNat? (w >>> TAG_OBJECT_TYPE_SHIFT) with
        | Option.none => (.error .valueError, i1)
        | some object_type => (.ok (object_type, w &&& 0x3FFFFF), i1)

/-- Propagate a raised exception, or apply a pure function to the value
(the translation of returning a constructor applied to a sub-parse). -/
def mapRes (r : DecRes α) (f : α → β) : DecRes β :=
  match r with
  | (.error e, i1) => (.error e, i1)
  | (.ok v, i1) => (.ok (f v), i1)

theorem mapRes_snd (r : DecRes α) (f : α → β) : (mapRes r f).2 = r.2 := by
  rcases r with ⟨r, i1⟩; cases r <;> rfl

/-- BACnetDecoder.parse_value_element: dispatch on the application tag
number, in the order of the source; unknown tags fall back to reading
the declared number of raw bytes. -/
def parse_value_element (data : List Nat) (tag_number tag_len_or_val : Nat)
    (i : Nat) : DecRes Val :=
  if tag_number = 0 then
    if tag_len_or_val ≠ 0 then
      mapRes (read_bytes data (tag_len_or_val : Int) i) (fun _ => .null)
    else (.ok .null, i)
  else if tag_number = 1 then (.ok (.bool (tag_len_or_val ≠ 0)), i)
  else if tag_number = 2 then
    mapRes (parse_unsinged_int data tag_len_or_val i) (fun v => .int v)
  else if tag_number = 3 then
    mapRes (parse_signed_int data tag_len_or_val i) (fun v => .int v)
  else if tag_number = 4 then
    mapRes (parse_float data tag_len_or_val i) (fun raw => .real raw)
  else if tag_number = 5 then
    mapRes (parse_double data tag_len_or_val i) (fun raw => .double raw)
  else if tag_number = 7 then
    mapRes (parse_string data tag_len_or_val i) (fun raw => .str raw)
  else if tag_number = 9 then
    mapRes (parse_enumarated_value data tag_len_or_val i) (fun v => .int v)
  else if tag_number = 12 then
    mapRes (parse_application_object_identifier data tag_len_or_val i)
      (fun p => .objectId p.1 p.2)
  else
    mapRes (read_bytes data (tag_len_or_val : Int) i)
      (fun raw => .unknown tag_number raw)

-- Cursor lemmas for the non-recursive decoder methods.  They serve two
-- purposes: the termination measures of the decoding loops below, and
-- the cursor-monotonicity claim.

theorem read_byte_snd_ge (data : List Nat) (i : Nat) :
    i ≤ (read_byte data i).2 := by
  unfold read_byte; split <;> simp

theorem read_byte_ok {data : List Nat} {i b j : Nat}
    (h : read_byte data i = (.ok b, j)) : j = i + 1 ∧ i < data.length := by
  unfold read_byte at h
  split at h
  · exact absurd h (by simp)
  · rename_i hlen
    simp only [Prod.mk.injEq] at h
    omega

theorem read_bytes_snd_ge (data : List Nat) (n : Int) (i : Nat)
    (hn : 0 ≤ n) : i ≤ (read_bytes data n i).2 := by
  unfold read_bytes
  split
  · simp
  · show i ≤ ((i : Int) + n).toNat
    omega

theorem read_tag_snd_ge (data : List Nat) (i : Nat) :
    i ≤ (read_tag data i).2 := by
  unfold read_tag
  have h0 := read_byte_snd_ge data i
  rcases h : read_byte data i with ⟨r, i1⟩
  rw [h] at h0
  cases r with
  | error e => simpa using h0
  | ok byte =>
    simp only at h0 ⊢
    have h1 := read_byte_snd_ge data i1
    rcases h2 : read_byte data i1 with ⟨r2, i2⟩
    rw [h2] at h1
    simp only at h1
    split
    · cases r2 with
      | error e => simpa using le_trans h0 h1
      | ok ext => simpa using le_trans h0 h1
    · simpa using h0

theorem read_tag_ok {data : List Nat} {i : Nat} {t : Nat × Nat × Nat}
    {j : Nat} (h : read_tag data i = (.ok t, j)) :
    i < j ∧ i < data.length := by
  unfold read_tag at h
  rcases hm : read_byte data i with ⟨r, i1⟩
  rw [hm] at h
  cases r with
  | error e => exact absurd h (by simp)
  | ok byte =>
    obtain ⟨h1, h2⟩ := read_byte_ok hm
    simp only at h
    split at h
    · rcases hm2 : read_byte data i1 with ⟨r2, i2⟩
      rw [hm2] at h
      cases r2 with
      | error e => exact absurd h (by simp)
      | ok ext =>
        obtain ⟨h3, -⟩ := read_byte_ok hm2
        simp only [Prod.mk.injEq] at h
        omega
    · simp only [Prod.mk.injEq] at h
      omega

theorem peek_tag_snd (data : List Nat) (i : Nat) :
    (peek_tag data i).2 = i := rfl

theorem read_context_tag_snd_ge (data : List Nat) (i : Nat) :
    i ≤ (read_context_tag data i).2 := by
  unfold read_context_tag
  have h0 := read_tag_snd_ge data i
  rcases h : read_tag data i with ⟨r, i1⟩
  rw [h] at h0
  cases r with
  | error e => simpa using h0
  | ok t =>
    rcases t with ⟨n, c, l⟩
    simp only at h0 ⊢
    split <;> simpa using h0

theorem read_context_tag_ok {data : List Nat} {i : Nat} {t : Nat × Nat}
    {j : Nat} (h : read_context_tag data i = (.ok t, j)) :
    i < j ∧ i < data.length := by
  unfold read_context_tag at h
  rcases hm : read_tag data i with ⟨r, i1⟩
  rw [hm] at h
  cases r with
  | error e => exact absurd h (by simp)
  | ok tg =>
    rcases tg with ⟨n, c, l⟩
    have hr := read_tag_ok hm
    simp only at h
    split at h
    · exact absurd h (by simp)
    · simp only [Prod.mk.injEq] at h
      omega

theorem read_application_tag_snd_ge (data : List Nat) (i : Nat) :
    i ≤ (read_application_tag data i).2 := by
  unfold read_application_tag
  have h0 := read_tag_snd_ge data i
  rcases h : read_tag data i with ⟨r, i1⟩
  rw [h] at h0
  cases r with
  | error e => simpa using h0
  | ok t =>
    rcases t with ⟨n, c, l⟩
    simp only at h0 ⊢
    split <;> simpa using h0

theorem read_application_tag_ok {data : List Nat} {i : Nat} {t : Nat × Nat}
    {j : Nat} (h : read_application_tag data i = (.ok t, j)) :
    i < j ∧ i < data.length := by
  unfold read_application_tag at h
  rcases hm : read_tag data i with ⟨r, i1⟩
  rw [hm] at h
  cases r with
  | error e => exact absurd h (by simp)
  | ok tg =>
    rcases tg with ⟨n, c, l⟩
    have hr := read_tag_ok hm
    simp only at h
    split at h
    · exact absurd h (by simp)
    · simp only [Prod.mk.injEq] at h
      omega

theorem parse_object_identifier_snd_ge (data : List Nat) (i : Nat) :
    i ≤ (parse_object_identifier data i).2 := by
  unfold parse_object_identifier
  have h0 := read_context_tag_snd_ge data i
  rcases h : read_context_tag data i with ⟨r, i1⟩
  rw [h] at h0
  cases r with
  | error e => simpa using h0
  | ok t =>
    rcases t with ⟨n, l⟩
    simp only at h0 ⊢
    split
    · simpa using h0
    · have h1 := read_bytes_snd_ge data (l : Int) i1 (by omega)
      rcases h2 : read_bytes data (l : Int) i1 with ⟨r2, i2⟩
      rw [h2] at h1
      simp only at h1
      cases r2 with
      | error e => simpa using le_trans h0 h1
      | ok bs =>
        cases h3 : unpack_u32 bs with
        | error e => simp only [h3]; simpa using le_trans h0 h1
        | ok w =>
          simp only [h3]
          cases h4 : ObjectType.ofNat? (w >>> TAG_OBJECT_TYPE_SHIFT) with
          | none => simp only [h4]; simpa using le_trans h0 h1
          | some ot => simp only [h4]; simpa using le_trans h0 h1

theorem parse_object_identifier_ok {data : List Nat} {i : Nat}
    {t : ObjectType × Nat} {j : Nat}
    (h : parse_object_identifier data i = (.ok t, j)) :
    i < j ∧ i < data.length := by
  unfold parse_object_identifier at h
  rcases hm : read_context_tag data i with ⟨r, i1⟩
  rw [hm] at h
  cases r with
  | error e => exact absurd h (by simp)
  | ok tg =>
    rcases tg with ⟨n, l⟩
    have hr := read_context_tag_ok hm
    simp only at h
    split at h
    · exact absurd h (by simp)
    · have h1 := read_bytes_snd_ge data (l : Int) i1 (by omega)
      rcases hm2 : read_bytes data (l : Int) i1 with ⟨r2, i2⟩
      rw [hm2] at h
      rw [hm2] at h1
      simp only at h1
      cases r2 with
      | error e => exact absurd h (by simp)
      | ok bs =>
        simp only at h
        cases h3 : unpack_u32 bs with
        | error e => rw [h3] at h; exact absurd h (by simp)
        | ok w =>
          rw [h3] at h
          simp only at h
          cases h4 : ObjectType.ofNat? (w >>> TAG_OBJECT_TYPE_SHIFT) with
          | none => rw [h4] at h; exact absurd h (by simp)
          | some ot =>
            rw [h4] at h
            simp only [Prod.mk.injEq] at h
            omega

theorem parse_uint_loop_snd_ge (data : List Nat) (len value i : Nat) :
    i ≤ (parse_uint_loop data len value i).2 := by
  induction len generalizing value i with
  | zero => simp [parse_uint_loop]
  | succ k ih =>
    unfold parse_uint_loop
    have h0 := read_byte_snd_ge data i
    rcases h : read_byte data i with ⟨r, i1⟩
    rw [h] at h0
    cases r with
    | error e => simpa using h0
    | ok b => simpa using le_trans h0 (ih _ i1)

theorem parse_enumarated_value_snd_ge (data : List Nat) (len i : Nat) :
    i ≤ (parse_enumarated_value data len i).2 :=
  parse_uint_loop_snd_ge data len 0 i

theorem parse_unsinged_int_snd_ge (data : List Nat) (len i : Nat) :
    i ≤ (parse_unsinged_int data len i).2 :=
  parse_uint_loop_snd_ge data len 0 i

theorem parse_signed_int_snd_ge (data : List Nat) (len i : Nat) :
    i ≤ (parse_signed_int data len i).2 := by
  unfold parse_signed_int
  have h0 := read_bytes_snd_ge data (len : Int) i (by omega)
  rcases h : read_bytes data (len : Int) i with ⟨r, i1⟩
  rw [h] at h0
  cases r with
  | error e => simpa using h0
  | ok bs =>
    simp only at h0 ⊢
    split
    · simpa using h0
    · split <;> simpa using h0

theorem parse_float_snd_ge (data : List Nat) (len i : Nat) :
    i ≤ (parse_float data len i).2 := by
  unfold parse_float
  split
  · simp
  · exact read_bytes_snd_ge data (len : Int) i (by omega)

theorem parse_double_snd_ge (data : List Nat) (len i : Nat) :
    i ≤ (parse_double data len i).2 := by
  unfold parse_double
  split
  · simp
  · exact read_bytes_snd_ge data (len : Int) i (by omega)

theorem parse_string_snd_ge (data : List Nat) (len i : Nat) :
    i ≤ (parse_string data len i).2 := by
  unfold parse_string
  rcases h : read_byte data i with ⟨r, i1⟩
  cases r with
  | error e =>
    have h0 := read_byte_snd_ge data i
    rw [h] at h0
    simpa using h0
  | ok enc =>
    obtain ⟨h1, -⟩ := read_byte_ok h
    simp only
    split
    · simp; omega
    · unfold read_bytes
      split <;> simp <;> omega

theorem parse_application_object_identifier_snd_ge (data : List Nat)
    (len i : Nat) :
    i ≤ (parse_application_object_identifier data len i).2 := by
  unfold parse_application_object_identifier
  split
  · simp
  · have h0 := read_bytes_snd_ge data (len : Int) i (by omega)
    rcases h : read_bytes data (len : Int) i with ⟨r, i1⟩
    rw [h] at h0
    cases r with
    | error e => simpa using h0
    | ok bs =>
      simp only at h0 ⊢
      cases h3 : unpack_u32 bs with
      | error e => simp only [h3]; simpa using h0
      | ok w =>
        simp only [h3]
        cases h4 : ObjectType.ofNat? (w >>> TAG_OBJECT_TYPE_SHIFT) with
        | none => simp only [h4]; simpa using h0
        | some ot => simp only [h4]; simpa using h0

theorem parse_value_element_snd_ge (data : List Nat) (t l i : Nat) :
    i ≤ (parse_value_element data t l i).2 := by
  unfold parse_value_element
  repeat' split
  all_goals simp only [mapRes_snd]
  · exact read_bytes_snd_ge data (l : Int) i (by omega)
  · exact le_refl i
  · exact le_refl i
  · exact parse_unsinged_int_snd_ge data l i
  · exact parse_signed_int_snd_ge data l i
  · exact parse_float_snd_ge data l i
  · exact parse_double_snd_ge data l i
  · exact parse_string_snd_ge data l i
  · exact parse_enumarated_value_snd_ge data l i
  · exact parse_application_object_identifier_snd_ge data l i
  · exact read_bytes_snd_ge data (l : Int) i (by omega)

/-- BACnetDecoder.parse_priority_array: keep reading application-tagged
elements until the next tag peeks as the closing context tag of the
propertyValue wrapper.  Each iteration consumes at least the tag byte,
which bounds the recursion by the remaining buffer length. -/
def parse_priority_array (data : List Nat) (opening_tag_number : Nat)
    (i : Nat) : DecRes (List Val) :=
  match peek_tag data i with
  | (.error e, i1) => (.error e, i1)
  | (.ok (tnum, tclass, tlvt), _) =>
    if tclass = 1 ∧ tnum = opening_tag_number ∧ tlvt = TAG_CLOSE then
      (.ok [], i)
    else
      match h2 : read_application_tag data i with
      | (.error e, i1) => (.error e, i1)
      | (.ok (app_tag, app_len_or_val), i1) =>
        match h3 : parse_value_element data app_tag app_len_or_val i1 with
        | (.error e, i2) => (.error e, i2)
        | (.ok v, i2) =>
          match parse_priority_array data opening_tag_number i2 with
          | (.error e, i3) => (.error e, i3)
          | (.ok vs, i3) => (.ok (v :: vs), i3)
termination_by data.length - i
decreasing_by
  have ha := read_application_tag_ok h2
  have hb := parse_value_element_snd_ge data app_tag app_len_or_val i1
  rw [h3] at hb
  simp only at hb
  omega

theorem parse_priority_array_snd_ge (data : List Nat) (o i : Nat) :
    i ≤ (parse_priority_array data o i).2 := by
  generalize hfuel : data.length - i = fuel
  induction fuel using Nat.strong_induction_on generalizing i with
  | _ fuel ih =>
  subst hfuel
  unfold parse_priority_array
  rcases h : peek_tag data i with ⟨r, i0⟩
  have hpk : i = i0 := by
    have := peek_tag_snd data i; rw [h] at this; exact this.symm
  subst hpk
  cases r with
  | error e => simp
  | ok t =>
    rcases t with ⟨tn, tc, tl⟩
    simp only
    split
    · simp
    · rcases h2 : read_application_tag data i with ⟨r2, i1⟩
      cases r2 with
      | error e =>
        have := read_application_tag_snd_ge data i
        rw [h2] at this
        simpa using this
      | ok tg =>
        rcases tg with ⟨at1, al1⟩
        obtain ⟨ha1, ha2⟩ := read_application_tag_ok h2
        simp only
        rcases h3 : parse_value_element data at1 al1 i1 with ⟨r3, i2⟩
        have hb := parse_value_element_snd_ge data at1 al1 i1
        rw [h3] at hb
        simp only at hb
        cases r3 with
        | error e => simpa using le_trans (le_of_lt ha1) hb
        | ok v =>
          simp only
          have hrec : i2 ≤ (parse_priority_array data o i2).2 :=
            ih (data.length - i2) (by omega) i2 rfl
          rcases h4 : parse_priority_array data o i2 with ⟨r4, i3⟩
          rw [h4] at hrec
          simp only at hrec
          cases r4 with
          | error e => simpa using le_trans (le_of_lt ha1) (le_trans hb hrec)
          | ok vs => simpa using le_trans (le_of_lt ha1) (le_trans hb hrec)

/-- BACnetDecoder.read_value: opening context tag (must be OPEN), then
either the propertyValue payload (with the Priority_Array special case
when the enclosing property id is 87), or the propertyAccessError payload
(four bytes, read and discarded, the value keeping its initialiser 0),
or nothing for any other opening tag number; then the matching closing
context tag. -/
def read_value (data : List Nat) (property_id : Option Nat) (i : Nat) :
    DecRes Val :=
  match read_context_tag data i with
  | (.error e, i1) => (.error e, i1)
  | (.ok (opening_tag_number, tag_type), i1) =>
    if tag_type ≠ TAG_OPEN then (.error .decodingError, i1)
    else
      let body : DecRes Val :=
        if opening_tag_number = TAG_NO_PROPERTY_VALUE then
          if property_id = some PRIORITY_ARRAY_PROPERTY_ID then
            mapRes (parse_priority_array data opening_tag_number i1)
              (fun vs => .priorityArray vs)
          else
            match read_application_tag data i1 with
            | (.error e, i2) => (.error e, i2)
            | (.ok (tag_number, tag_length), i2) =>
              parse_value_element data tag_number tag_length i2
        else if opening_tag_number = TAG_NO_PROPERTY_ACCESS_ERROR then
          mapRes (read_bytes data (PROPERTY_ACCESS_ERROR_SIZE : Int) i1)
            (fun _ => .int 0)
        else (.ok (.int 0), i1)
      match body with
      | (.error e, i2) => (.error e, i2)
      | (.ok value, i2) =>
        match read_context_tag data i2 with
        | (.error e, i3) => (.error e, i3)
        | (.ok (tag_number, tag_type2), i3) =>
          if tag_number ≠ opening_tag_number ∨ tag_type2 ≠ TAG_CLOSE then
            (.error .decodingError, i3)
          else (.ok value, i3)

theorem read_value_snd_ge (data : List Nat) (p : Option Nat) (i : Nat) :
    i ≤ (read_value data p i).2 := by
  unfold read_value
  have h0 := read_context_tag_snd_ge data i
  rcases h : read_context_tag data i with ⟨r, i1⟩
  rw [h] at h0
  cases r with
  | error e => simpa using h0
  | ok t =>
    rcases t with ⟨otn, tt⟩
    simp only at h0 ⊢
    split
    · simpa using h0
    · have hbody : i1 ≤ (if otn = TAG_NO_PROPERTY_VALUE then
          if p = some PRIORITY_ARRAY_PROPERTY_ID then
            mapRes (parse_priority_array data otn i1)
              (fun vs => .priorityArray vs)
          else
            match read_application_tag data i1 with
            | (.error e, i2) => (.error e, i2)
            | (.ok (tag_number, tag_length), i2) =>
              parse_value_element data tag_number tag_length i2
        else if otn = TAG_NO_PROPERTY_ACCESS_ERROR then
          mapRes (read_bytes data (PROPERTY_ACCESS_ERROR_SIZE : Int) i1)
            (fun _ => .int 0)
        else ((.ok (.int 0), i1) : DecRes Val)).2 := by
        split
        · split
          · rw [mapRes_snd]
            exact parse_priority_array_snd_ge data otn i1
          · have ht := read_application_tag_snd_ge data i1
            rcases hm : read_application_tag data i1 with ⟨r2, i2⟩
            rw [hm] at ht
            cases r2 with
            | error e => simpa using ht
            | ok tg =>
              rcases tg with ⟨tn2, tl2⟩
              simp only at ht ⊢
              exact le_trans ht
                (parse_value_element_snd_ge data tn2 tl2 i2)
        · split
          · rw [mapRes_snd]
            exact read_bytes_snd_ge data _ i1 (by norm_num)
          · simp
      rcases hb : (if otn = TAG_NO_PROPERTY_VALUE then
          if p = some PRIORITY_ARRAY_PROPERTY_ID then
            mapRes (parse_priority_array data otn i1)
              (fun vs => .priorityArray vs)
          else
            match read_application_tag data i1 with
            | (.error e, i2) => (.error e, i2)
            | (.ok (tag_number, tag_length), i2) =>
              parse_value_element data tag_number tag_length i2
        else if otn = TAG_NO_PROPERTY_ACCESS_ERROR then
          mapRes (read_bytes data (PROPERTY_ACCESS_ERROR_SIZE : Int) i1)
            (fun _ => .int 0)
        else ((.ok (.int 0), i1) : DecRes Val)) with ⟨rb, i2⟩
      rw [hb] at hbody
      simp only at hbody
      cases rb with
      | error e => simpa using le_trans h0 hbody
      | ok value =>
        simp only
        have hc := read_context_tag_snd_ge data i2
        rcases hm3 : read_context_tag data i2 with ⟨r3, i3⟩
        rw [hm3] at hc
        cases r3 with
        | error e => simpa using le_trans h0 (le_trans hbody hc)
        | ok t3 =>
          rcases t3 with ⟨tn3, tt3⟩
          simp only at hc ⊢
          split <;> simpa using le_trans h0 (le_trans hbody hc)

/-- The loop of BACnetDecoder.parse_list_of_results: read a context tag;
stop on the closing tag of the wrapper; require tag number 2; read the
property id byte; apply the ReadValue enum constructor (ValueError on an
unknown property id); read the value (passing the property id so that
read_value can decode Priority_Array specially); repeat. -/
def parse_list_of_results_loop (data : List Nat) (opening_tag_number : Nat)
    (i : Nat) : DecRes (List (ReadValue × Val)) :=
  match h1 : read_context_tag data i with
  | (.error e, i1) => (.error e, i1)
  | (.ok (tag_number, tag_type), i1) =>
    if tag_number = opening_tag_number ∧ tag_type = TAG_CLOSE then
      (.ok [], i1)
    else if tag_number ≠ 2 then (.error .decodingError, i1)
    else
      match h2 : read_byte data i1 with
      | (.error e, i2) => (.error e, i2)
      | (.ok prop_id, i2) =>
        match ReadValue.ofNat? prop_id with
        | Option.none => (.error .valueError, i2)
        | some rv =>
          match h3 : read_value data (some prop_id) i2 with
          | (.error e, i3) => (.error e, i3)
          | (.ok v, i3) =>
            match parse_list_of_results_loop data opening_tag_number i3 with
            | (.error e, i4) => (.error e, i4)
            | (.ok rest, i4) => (.ok ((rv, v) :: rest), i4)
termination_by data.length - i
decreasing_by
  have ha := read_context_tag_ok h1
  have hb := read_byte_ok h2
  have hc := read_value_snd_ge data (some prop_id) i2
  rw [h3] at hc
  simp only at hc
  omega

/-- BACnetDecoder.parse_list_of_results: opening context tag (must be
OPEN), then the entry loop. -/
def parse_list_of_results (data : List Nat) (i : Nat) :
    DecRes (List (ReadValue × Val)) :=
  match read_context_tag data i with
  | (.error e, i1) => (.error e, i1)
  | (.ok (opening_tag_number, tag_type), i1) =>
    if tag_type ≠ TAG_OPEN then (.error .decodingError, i1)
    else parse_list_of_results_loop data opening_tag_number i1

theorem parse_list_of_results_loop_snd_ge (data : List Nat) (o i : Nat) :
    i ≤ (parse_list_of_results_loop data o i).2 := by
  generalize hfuel : data.length - i = fuel
  induction fuel using Nat.strong_induction_on generalizing i with
  | _ fuel ih =>
  subst hfuel
  unfold parse_list_of_results_loop
  rcases h1 : read_context_tag data i with ⟨r, i1⟩
  cases r with
  | error e =>
    have := read_context_tag_snd_ge data i
    rw [h1] at this
    simpa using this
  | ok t =>
    rcases t with ⟨tn, tt⟩
    obtain ⟨hlt, hlen⟩ := read_context_tag_ok h1
    simp only
    split
    · simpa using le_of_lt hlt
    · split
      · simpa using le_of_lt hlt
      · rcases h2 : read_byte data i1 with ⟨r2, i2⟩
        cases r2 with
        | error e =>
          have := read_byte_snd_ge data i1
          rw [h2] at this
          simpa using le_trans (le_of_lt hlt) this
        | ok prop_id =>
          obtain ⟨hb1, -⟩ := read_byte_ok h2
          simp only
          cases hrv : ReadValue.ofNat? prop_id with
          | none => simp only [hrv]; omega
          | some rv =>
            simp only [hrv]
            rcases h3 : read_value data (some prop_id) i2 with ⟨r3, i3⟩
            have hc := read_value_snd_ge data (some prop_id) i2
            rw [h3] at hc
            simp only at hc
            cases r3 with
            | error e => simpa using le_trans (le_of_lt hlt) (by omega)
            | ok v =>
              simp only
              have hrec : i3 ≤ (parse_list_of_results_loop data o i3).2 :=
                ih (data.length - i3) (by omega) i3 rfl
              rcases h4 : parse_list_of_results_loop data o i3 with ⟨r4, i4⟩
              rw [h4] at hrec
              simp only at hrec
              cases r4 with
              | error e => simpa using le_trans (le_of_lt hlt) (by omega)
              | ok rest => simpa using le_trans (le_of_lt hlt) (by omega)

theorem parse_list_of_results_snd_ge (data : List Nat) (i : Nat) :
    i ≤ (parse_list_of_results data i).2 := by
  unfold parse_list_of_results
  have h0 := read_context_tag_snd_ge data i
  rcases h : read_context_tag data i with ⟨r, i1⟩
  rw [h] at h0
  cases r with
  | error e => simpa using h0
  | ok t =>
    rcases t with ⟨otn, tt⟩
    simp only at h0 ⊢
    split
    · simpa using h0
    · simpa using le_trans h0 (parse_list_of_results_loop_snd_ge data otn i1)

theorem parse_list_of_results_ok {data : List Nat} {i : Nat}
    {props : List (ReadValue × Val)} {j : Nat}
    (h : parse_list_of_results data i = (.ok props, j)) : i < j := by
  unfold parse_list_of_results at h
  rcases hm : read_context_tag data i with ⟨r, i1⟩
  rw [hm] at h
  cases r with
  | error e => exact absurd h (by simp)
  | ok t =>
    rcases t with ⟨otn, tt⟩
    obtain ⟨hlt, -⟩ := read_context_tag_ok hm
    simp only at h
    split at h
    · exact absurd h (by simp)
    · have := parse_list_of_results_loop_snd_ge data otn i1
      rw [h] at this
      simp only at this
      omega

/-- An association list standing for a Python dict: assignment replaces
the value of an existing key in place, otherwise appends. -/
def dictInsert (st : List (α × β)) (k : α) (v : β) [DecidableEq α] :
    List (α × β) :=
  if st.any (fun kv => kv.1 = k) then
    st.map (fun kv => if kv.1 = k then (k, v) else kv)
  else st ++ [(k, v)]

/-- DeviceState: the dict from object identifiers to decoded property
lists (Python dict modelled as an insertion-ordered association list). -/
abbrev DeviceState := List ((ObjectType × Nat) × List (ReadValue × Val))

/-- The object loop of _parse_read_property_multiple_response: while not
at end of buffer, parse an object identifier and its list of results and
assign into the dict. -/
def parse_objects (apdu : List Nat) (i : Nat) (acc : DeviceState) :
    Except PyErr DeviceState :=
  if apdu.length ≤ i then .ok acc
  else
    match h1 : parse_object_identifier apdu i with
    | (.error e, _) => .error e
    | (.ok (object_type, instance_number), i1) =>
      match h2 : parse_list_of_results apdu i1 with
      | (.error e, _) => .error e
      | (.ok props, i2) =>
        parse_objects apdu i2 (dictInsert acc (object_type, instance_number) props)
termination_by apdu.length - i
decreasing_by
  have ha := parse_object_identifier_ok h1
  have hb := parse_list_of_results_ok h2
  omega

/-- The function _parse_read_property_multiple_response: check the BVLC
type and function (unpack of the first four bytes raises struct.error on
a shorter input), drop the six header bytes, check the APDU type, the
invoke id and the service choice (plain indexing, raising IndexError on
a too-short APDU), then run the decoder from offset 3. -/
def _parse_read_property_multiple_response (response : List Nat) :
    Except PyErr DeviceState :=
  if response.length < 4 then .error .structError
  else if response.getD 0 0 ≠ BVLC_TYPE ∨ response.getD 1 0 ≠ BVLC_FUNCTION_UNICAST
    then .error .decodingError
  else
    let apdu := response.drop (BVLC_LENGTH + NPDU.length)
    if apdu.length < 1 then .error .indexError
    else if apdu.getD 0 0 >>> 4 ≠ 3 then .error .decodingError
    else if apdu.length < 2 then .error .indexError
    else if apdu.getD 1 0 ≠ INVOKE_ID then .error .decodingError
    else if apdu.length < 3 then .error .indexError
    else if apdu.getD 2 0 ≠ 14 then .error .decodingError
    else parse_objects apdu 3 []

/-- The chunking of SiemensBACnet.update: slices of twenty descriptors
(range with step 20 over the descriptor list). -/
def update_chunks : List DeviceProperty → List (List DeviceProperty)
  | [] => []
  | x :: xs => ((x :: xs).take 20) :: update_chunks ((x :: xs).drop 20)
termination_by l => l.length
decreasing_by simp [List.length_drop]; omega

/-- Python dict.update: assign every pair of the second dict into the
first, in order. -/
def dictUpdate (st other : DeviceState) : DeviceState :=
  other.foldl (fun s kv => dictInsert s kv.1 kv.2) st

/-- The chunk loop of SiemensBACnet.update: the local accumulator dict
starts empty and is updated with each chunk reply; the first failing
read aborts the loop with its exception. The network read is an oracle
argument, standing for self.bacnet.read_multiple. -/
def update_loop (oracle : List DeviceProperty → Except PyErr DeviceState) :
    List (List DeviceProperty) → DeviceState → Except PyErr DeviceState
  | [], state => .ok state
  | c :: cs, state =>
    match oracle c with
    | .error e => .error e
    | .ok s => update_loop oracle cs (dictUpdate state s)

/-- SiemensBACnet.update: run the chunk loop on the empty local dict;
only when every chunk succeeded is the cached state replaced by the
fully accumulated dict; a raised exception propagates and leaves the
cache untouched. The returned pair is the new cache and the outcome. -/
def update (oracle : List DeviceProperty → Except PyErr DeviceState)
    (props : List DeviceProperty) (cache : Option DeviceState) :
    Option DeviceState × Except PyErr Unit :=
  match update_loop oracle (update_chunks props) [] with
  | .error e => (cache, .error e)
  | .ok s => (some s, .ok ())

-- Arithmetic bridges between the bit operations of the source and the
-- divide-and-mod reasoning of the proofs.

theorem lor_high_low (a b k : Nat) (h : b < 2 ^ k) :
    a <<< k ||| b = a * 2 ^ k + b := by
  apply Nat.eq_of_testBit_eq
  intro j
  rw [Nat.testBit_or, Nat.testBit_shiftLeft, Nat.mul_comm a,
    Nat.testBit_mul_pow_two_add a h j]
  by_cases hj : j < k
  · simp [hj, Nat.not_le_of_lt hj]
  · have hb : b.testBit j = false := by
      apply Nat.testBit_lt_two_pow
      exact Nat.lt_of_lt_of_le h (Nat.pow_le_pow_right (by omega) (by omega))
    simp [hj, Nat.le_of_not_lt hj, hb]

theorem unpack_u32_u32be (w : Nat) (h : w < 2 ^ 32) :
    unpack_u32 (u32be w) = .ok w := by
  show Except.ok (((w / 2 ^ 24 % 256 * 256 + w / 2 ^ 16 % 256) * 256
    + w / 2 ^ 8 % 256) * 256 + w % 256) = Except.ok w
  congr 1
  have h24 : (2 : Nat) ^ 24 = 16777216 := by norm_num
  have h16 : (2 : Nat) ^ 16 = 65536 := by norm_num
  have h8 : (2 : Nat) ^ 8 = 256 := by norm_num
  have h32 : (2 : Nat) ^ 32 = 4294967296 := by norm_num
  rw [h24, h16, h8]
  rw [h32] at h
  omega

theorem toNat_le (ot : ObjectType) : ot.toNat ≤ 48 := by
  cases ot <;> simp [ObjectType.toNat]

theorem ofNat_toNat (ot : ObjectType) : ObjectType.ofNat? ot.toNat = some ot := by
  cases ot <;> rfl

/-- C8: for every ObjectType and every instance id up to 0x3FFFFF, the
five bytes written by apdu_object_identifier (context tag 0 length 4
followed by the big-endian word object type shifted left 22 or-ed with
the instance id) decode through parse_object_identifier back to the same
pair, and the word for ANALOG_VALUE instance 111 is 0x0080006F. -/
theorem object_identifier_roundtrip :
    (∀ (ot : ObjectType) (iid : Nat), iid ≤ 0x3FFFFF →
      ∃ bytes,
        apdu_object_identifier ⟨ot, iid, [ReadValue.PRESENT_VALUE], Option.none⟩
          = .ok bytes ∧
        bytes.length = 5 ∧
        parse_object_identifier bytes 0 = (.ok (ot, iid), 5)) ∧
    oidWord ⟨ObjectType.ANALOG_VALUE, 111, [ReadValue.PRESENT_VALUE],
      Option.none⟩ = 0x0080006F := by
  constructor
  · intro ot iid hiid
    have h22 : (2 : Nat) ^ 22 = 4194304 := by norm_num
    have hlt : iid < 2 ^ 22 := by omega
    have hw : oidWord ⟨ot, iid, [ReadValue.PRESENT_VALUE], Option.none⟩
        = ot.toNat * 2 ^ 22 + iid := by
      unfold oidWord TAG_OBJECT_TYPE_SHIFT
      exact lor_high_low _ _ _ hlt
    have hC := toNat_le ot
    have hw32 : oidWord ⟨ot, iid, [ReadValue.PRESENT_VALUE], Option.none⟩
        < 2 ^ 32 := by
      rw [hw]
      have h32 : (2 : Nat) ^ 32 = 4294967296 := by norm_num
      omega
    refine ⟨[ctxTagInt 0 4]
      ++ u32be (oidWord ⟨ot, iid, [ReadValue.PRESENT_VALUE], Option.none⟩),
      ?_, by rfl, ?_⟩
    · unfold apdu_object_identifier pack_u32
      rw [if_pos hw32]
    · generalize hword :
        oidWord ⟨ot, iid, [ReadValue.PRESENT_VALUE], Option.none⟩ = w
      rw [hword] at hw hw32
      have hctx : ctxTagInt 0 4 = 12 := by rfl
      rw [hctx]
      simp only [List.singleton_append]
      unfold parse_object_identifier
      have hrc : read_context_tag (12 :: u32be w) 0 = (.ok (0, 4), 1) := by
        unfold read_context_tag read_tag read_byte
        simp [u32be]
        rw [show ((12 : Nat) &&& 7) = 4 from rfl]
        simp
      rw [hrc]
      simp only
      rw [if_neg (by omega)]
      have hrb : read_bytes (12 :: u32be w) ((4 : Nat) : Int) 1
          = (.ok (u32be w), 5) := by
        unfold read_bytes
        rw [if_neg (by simp [u32be])]
        simp [u32be]
      rw [hrb]
      simp only
      rw [unpack_u32_u32be w hw32]
      simp only
      have hshift : w >>> TAG_OBJECT_TYPE_SHIFT = ot.toNat := by
        unfold TAG_OBJECT_TYPE_SHIFT
        rw [Nat.shiftRight_eq_div_pow]
        rw [h22] at hw hlt ⊢
        omega
      rw [hshift, ofNat_toNat]
      simp only
      have hmask : w &&& 4194303 = iid := by
        have hm : (4194303 : Nat) = 2 ^ 22 - 1 := by norm_num
        rw [hm, Nat.and_pow_two_sub_one_eq_mod]
        rw [h22] at hw hlt ⊢
        omega
      rw [hmask]
  · rfl

/-- Witness for C8 at the concrete pair ANALOG_VALUE, 111. -/
theorem object_identifier_roundtrip_witness :
    (111 : Nat) ≤ 0x3FFFFF ∧
    ∃ bytes,
      apdu_object_identifier ⟨ObjectType.ANALOG_VALUE, 111,
        [ReadValue.PRESENT_VALUE], Option.none⟩ = .ok bytes ∧
      bytes.length = 5 ∧
      parse_object_identifier bytes 0
        = (.ok (ObjectType.ANALOG_VALUE, 111), 5) :=
  ⟨by norm_num,
    object_identifier_roundtrip.1 ObjectType.ANALOG_VALUE 111 (by norm_num)⟩

/-- C10: for every returned property id other than DESCRIPTION 28,
OBJECT_NAME 77, PRESENT_VALUE 85 and PRIORITY_ARRAY 87,
parse_list_of_results raises ValueError (the ReadValue enum
constructor), not DecodingError, aborting the decode of the reply. -/
theorem unknown_property_id_raises_value_error :
    ∀ p : Nat, p < 256 → p ≠ 28 → p ≠ 77 → p ≠ 85 → p ≠ 87 →
    parse_list_of_results [0x1E, 0x29, p] 0 = (.error .valueError, 3) := by
  intro p hp h28 h77 h85 h87
  unfold parse_list_of_results
  have h1 : read_context_tag [0x1E, 0x29, p] 0 = (.ok (1, 6), 1) := by
    unfold read_context_tag read_tag read_byte
    simp
    rw [show ((0x1E : Nat) &&& 7) = 6 from rfl]
    simp
  rw [h1]
  simp only
  rw [if_neg (by decide)]
  unfold parse_list_of_results_loop
  have h2 : read_context_tag [0x1E, 0x29, p] 1 = (.ok (2, 1), 2) := by
    unfold read_context_tag read_tag read_byte
    simp
    rw [show ((0x29 : Nat) &&& 7) = 1 from rfl]
    simp
  rw [h2]
  simp only
  rw [if_neg (by decide)]
  rw [if_neg (by decide)]
  have h3 : read_byte [0x1E, 0x29, p] 2 = (.ok p, 3) := by
    unfold read_byte
    simp
  rw [h3]
  simp only
  have h4 : ReadValue.ofNat? p = Option.none := by
    unfold ReadValue.ofNat?
    rw [if_neg h28, if_neg h77, if_neg h85, if_neg h87]
  rw [h4]

/-- Witness for C10 at property id 0. -/
theorem unknown_property_id_witness :
    (0 : Nat) < 256 ∧
    parse_list_of_results [0x1E, 0x29, 0] 0 = (.error .valueError, 3) :=
  ⟨by norm_num, unknown_property_id_raises_value_error 0 (by norm_num)
    (by norm_num) (by norm_num) (by norm_num) (by norm_num)⟩

/-- C4 as amended: the ReadPropertyMultiple request for the single
descriptor ANALOG_VALUE 134 with PRESENT_VALUE carries, after the four
BVLC and two NPDU bytes, the APDU bytes
02 44 01 0E 0C 00 80 00 86 1E 09 55 1F — the first flags byte is 02
(confirmed request with segmented-response-accepted) and the second is
44 (max segments 4, max APDU size 4). -/
theorem rpm_s1_apdu_bytes :
    (_read_property_multiple [⟨ObjectType.ANALOG_VALUE, 134,
      [ReadValue.PRESENT_VALUE], Option.none⟩]).map (List.drop 6)
    = .ok [0x02, 0x44, 0x01, 0x0E, 0x0C, 0x00, 0x80, 0x00, 0x86,
        0x1E, 0x09, 0x55, 0x1F] := by decide

/-- Counterexample to C4 as stated: the APDU does not begin with the
bytes 00 04 that the claim gives for the two flag bytes. -/
theorem rpm_s1_apdu_bytes_cex :
    (_read_property_multiple [⟨ObjectType.ANALOG_VALUE, 134,
      [ReadValue.PRESENT_VALUE], Option.none⟩]).map (List.drop 6)
    ≠ .ok [0x00, 0x04, 0x01, 0x0E, 0x0C, 0x00, 0x80, 0x00, 0x86,
        0x1E, 0x09, 0x55, 0x1F] := by decide

theorem length_flatMap_pair (l : List ReadValue) (f g : ReadValue → Nat) :
    (l.flatMap fun rv => [f rv, g rv]).length = 2 * l.length := by
  induction l with
  | nil => rfl
  | cons x xs ih => simp [List.flatMap_cons] at ih ⊢; omega

theorem read_access_spec_ok (dp : DeviceProperty)
    (h : dp.instance_id < 2 ^ 22) :
    ∃ bs, read_access_spec dp = .ok bs ∧
      bs.length = 5 + 1 + 2 * dp.read_values.length + 1 := by
  have hw : oidWord dp = dp.object_type.toNat * 2 ^ 22 + dp.instance_id := by
    unfold oidWord TAG_OBJECT_TYPE_SHIFT
    exact lor_high_low _ _ _ h
  have hC := toNat_le dp.object_type
  have hw32 : oidWord dp < 2 ^ 32 := by
    rw [hw]
    have h32 : (2 : Nat) ^ 32 = 4294967296 := by norm_num
    have h22 : (2 : Nat) ^ 22 = 4194304 := by norm_num
    omega
  refine ⟨[ctxTagInt 0 4] ++ u32be (oidWord dp) ++ [ctxTagInt 1 TAG_OPEN]
    ++ (dp.read_values.flatMap fun rv => [ctxTagInt 0 1, rv.toNat])
    ++ [ctxTagInt 1 TAG_CLOSE], ?_, ?_⟩
  · unfold read_access_spec apdu_object_identifier pack_u32
    rw [if_pos hw32]
  · have hfl := length_flatMap_pair dp.read_values
      (fun _ => ctxTagInt 0 1) (fun rv => rv.toNat)
    simp [u32be] at hfl ⊢
    omega

theorem rpmSpecs_ok (props : List DeviceProperty)
    (h : ∀ dp ∈ props, dp.instance_id < 2 ^ 22) :
    ∃ bs, rpmSpecs props = .ok bs ∧
      bs.length = (props.map
        (fun dp => 5 + 1 + 2 * dp.read_values.length + 1)).sum := by
  induction props with
  | nil => exact ⟨[], rfl, rfl⟩
  | cons dp rest ih =>
    obtain ⟨bs1, hbs1, hlen1⟩ := read_access_spec_ok dp (h dp (by simp))
    obtain ⟨bs2, hbs2, hlen2⟩ := ih (fun d hd => h d (by simp [hd]))
    refine ⟨bs1 ++ bs2, ?_, ?_⟩
    · unfold rpmSpecs
      rw [hbs1, hbs2]
    · simp [hlen1, hlen2]

/-- C3 as amended: a ReadPropertyMultiple request built from N
descriptors, descriptor i requesting m_i property ids, has total byte
length 10 + the sum over i of (5 + 1 + 2 * m_i + 1): four BVLC bytes,
two NPDU bytes, four APDU header bytes, and per descriptor the 5-byte
object identifier, the open tag, two bytes per property id, and the
close tag. -/
theorem rpm_request_length_law :
    ∀ props : List DeviceProperty,
    (∀ dp ∈ props, dp.instance_id < 2 ^ 22) →
    10 + (props.map (fun dp => 5 + 1 + 2 * dp.read_values.length + 1)).sum
      < 2 ^ 16 →
    ∃ bytes, _read_property_multiple props = .ok bytes ∧
      bytes.length = 10 + (props.map
        (fun dp => 5 + 1 + 2 * dp.read_values.length + 1)).sum := by
  intro props hids htotal
  obtain ⟨specs, hspecs, hlen⟩ := rpmSpecs_ok props hids
  have hlen4 : (rpmHeader ++ specs).length = 4 + specs.length := by
    simp [rpmHeader]
    omega
  have hb4 : BVLC_LENGTH = 4 := rfl
  have hn2 : NPDU.length = 2 := rfl
  have hfield : BVLC_LENGTH + NPDU.length + (rpmHeader ++ specs).length
      < 2 ^ 16 := by
    rw [hb4, hn2, hlen4, hlen]
    omega
  refine ⟨[BVLC_TYPE, BVLC_FUNCTION_UNICAST]
    ++ [(BVLC_LENGTH + NPDU.length + (rpmHeader ++ specs).length) / 2 ^ 8 % 256,
        (BVLC_LENGTH + NPDU.length + (rpmHeader ++ specs).length) % 256]
    ++ NPDU ++ (rpmHeader ++ specs), ?_, ?_⟩
  · unfold _read_property_multiple
    rw [hspecs]
    simp only
    unfold pack_u16
    rw [if_pos hfield]
  · simp [NPDU, rpmHeader, hlen]
    omega

/-- Counterexample to C3 as stated: for one descriptor with one
property id the datagram has 19 bytes, while the claimed formula
8 + (5 + 2 + 2 * 1 + 1) gives 18. -/
theorem rpm_length_formula_cex :
    (_read_property_multiple [⟨ObjectType.ANALOG_VALUE, 134,
      [ReadValue.PRESENT_VALUE], Option.none⟩]).map List.length = .ok 19 ∧
    (8 + (5 + 2 + 2 * 1 + 1) : Nat) ≠ 19 := by
  constructor
  · decide
  · decide

/-- Witness for C3 at the single descriptor ANALOG_VALUE 134. -/
theorem rpm_request_length_law_witness :
    ∃ bytes, _read_property_multiple [⟨ObjectType.ANALOG_VALUE, 134,
      [ReadValue.PRESENT_VALUE], Option.none⟩] = .ok bytes ∧
      bytes.length = 10 + ([(⟨ObjectType.ANALOG_VALUE, 134,
        [ReadValue.PRESENT_VALUE], Option.none⟩ : DeviceProperty)].map
        (fun dp => 5 + 1 + 2 * dp.read_values.length + 1)).sum :=
  rpm_request_length_law _ (by decide) (by decide)

theorem drop_len_pos {data : List Nat} {i x : Nat} {t : List Nat}
    (h : data.drop i = x :: t) : i < data.length := by
  have hl : data.length - i = t.length + 1 := by
    rw [← List.length_drop, h]
    rfl
  omega

theorem getD_of_drop {data : List Nat} {i x : Nat} {t : List Nat}
    (h : data.drop i = x :: t) : data.getD i 0 = x := by
  have h0 : data[i]? = some x := by
    have hx := List.getElem?_drop data i 0
    rw [h] at hx
    simpa using hx.symm
  simp [List.getD_eq_getElem?_getD, h0]

theorem drop_succ_of_drop {data : List Nat} {i x : Nat} {t : List Nat}
    (h : data.drop i = x :: t) : data.drop (i + 1) = t := by
  rw [← List.tail_drop, h]
  rfl

theorem read_byte_drop {data : List Nat} {i x : Nat} {t : List Nat}
    (h : data.drop i = x :: t) : read_byte data i = (.ok x, i + 1) := by
  unfold read_byte
  rw [if_neg (by have := drop_len_pos h; omega), getD_of_drop h]

theorem parse_priority_array_nulls (data : List Nat) (k i : Nat)
    (h : data.drop i = List.replicate k 0 ++ [0x4F]) :
    parse_priority_array data 4 i
      = (.ok (List.replicate k Val.null), i + k) := by
  induction k generalizing i with
  | zero =>
    have hb : read_byte data i = (.ok 0x4F, i + 1) :=
      read_byte_drop (by simpa using h)
    have ht : read_tag data i = (.ok (4, 1, 7), i + 1) := by
      unfold read_tag
      rw [hb]
      simp only
      rw [show ((0x4F : Nat) &&& 7) = 7 from rfl]
      norm_num
      decide
    unfold parse_priority_array
    rw [show peek_tag data i = ((read_tag data i).1, i) from rfl, ht]
    simp only
    rw [if_pos (by decide)]
    simp
  | succ k ih =>
    have hd : data.drop i = 0 :: (List.replicate k 0 ++ [0x4F]) := by
      simpa [List.replicate_succ] using h
    have hb : read_byte data i = (.ok 0, i + 1) := read_byte_drop hd
    have ht : read_tag data i = (.ok (0, 0, 0), i + 1) := by
      unfold read_tag
      rw [hb]
      simp
    unfold parse_priority_array
    rw [show peek_tag data i = ((read_tag data i).1, i) from rfl, ht]
    simp only
    rw [if_neg (by decide)]
    have hat : read_application_tag data i = (.ok (0, 0), i + 1) := by
      unfold read_application_tag
      rw [ht]
      simp
    rw [hat]
    simp only
    have hv : parse_value_element data 0 0 (i + 1) = (.ok .null, i + 1) := by
      unfold parse_value_element
      simp
    rw [hv]
    simp only
    rw [ih (i + 1) (drop_succ_of_drop hd),
      show i + 1 + k = i + (k + 1) from by omega]
    simp [List.replicate_succ]

theorem read_value_priority_nulls (k : Nat) :
    read_value ([0x4E] ++ List.replicate k 0 ++ [0x4F]) (some 87) 0
      = (.ok (.priorityArray (List.replicate k Val.null)), k + 2) := by
  generalize hdata : ([0x4E] ++ List.replicate k 0 ++ [0x4F] : List Nat) = data
  have hd0 : data.drop 0 = 0x4E :: (List.replicate k 0 ++ [0x4F]) := by
    rw [← hdata]; simp
  have hb := read_byte_drop hd0
  have ht : read_tag data 0 = (.ok (4, 1, 6), 1) := by
    unfold read_tag
    rw [hb]
    simp only
    rw [show ((0x4E : Nat) &&& 7) = 6 from rfl]
    norm_num
    decide
  have hct : read_context_tag data 0 = (.ok (4, 6), 1) := by
    unfold read_context_tag
    rw [ht]
    simp
  unfold read_value
  rw [hct]
  simp only
  rw [if_neg (by decide)]
  rw [if_pos (by decide)]
  rw [if_pos (by decide)]
  have hd1 : data.drop 1 = List.replicate k 0 ++ [0x4F] := by
    have := drop_succ_of_drop hd0
    simpa using this
  rw [parse_priority_array_nulls data k 1 hd1]
  unfold mapRes
  simp only
  have hdk : data.drop (1 + k) = [0x4F] := by
    rw [← hdata]
    rw [show (1 + k) = k + 1 from by omega]
    show ((0x4E :: (List.replicate k 0 ++ [0x4F])) : List Nat).drop (k + 1) = [0x4F]
    rw [List.drop_succ_cons]
    exact List.drop_left' (by simp)
  have hb2 : read_byte data (1 + k) = (.ok 0x4F, 1 + k + 1) := read_byte_drop hdk
  have ht2 : read_tag data (1 + k) = (.ok (4, 1, 7), 1 + k + 1) := by
    unfold read_tag
    rw [hb2]
    simp only
    rw [show ((0x4F : Nat) &&& 7) = 7 from rfl]
    norm_num
    decide
  have hct2 : read_context_tag data (1 + k) = (.ok (4, 7), 1 + k + 1) := by
    unfold read_context_tag
    rw [ht2]
    simp
  rw [hct2]
  simp only
  rw [if_neg (by decide)]
  congr 1
  omega

/-- Counterexample to C1 as stated: the payload of three Null
primitives is well-formed in the sense of the claim (application-tagged
primitives terminated by closing context tag 4), yet the decoded list
has three elements, not sixteen. -/
theorem priority_array_not_sixteen_cex :
    read_value [0x4E, 0, 0, 0, 0x4F] (some 87) 0
      = (.ok (.priorityArray [Val.null, Val.null, Val.null]), 5) ∧
    ([Val.null, Val.null, Val.null] : List Val).length ≠ 16 := by
  constructor
  · have h := read_value_priority_nulls 3
    simpa using h
  · decide

/-- C2 as amended: a propertyAccessError wrapper (context open tag 5)
makes read_value consume exactly four bytes of error payload whatever
their content, then the close tag 5, and return the decoder's
placeholder value, the Python int 0 — not a decoding failure; the four
raw bytes are discarded, not carried in the result. -/
theorem access_error_consumes_four_bytes :
    ∀ (b0 b1 b2 b3 : Nat) (pid : Option Nat),
    read_value [0x5E, b0, b1, b2, b3, 0x5F] pid 0 = (.ok (.int 0), 6) := by
  intro b0 b1 b2 b3 pid
  have hct : read_context_tag [0x5E, b0, b1, b2, b3, 0x5F] 0
      = (.ok (5, 6), 1) := by
    unfold read_context_tag read_tag read_byte
    simp
    rw [show ((0x5E : Nat) &&& 7) = 6 from rfl]
    norm_num
  unfold read_value
  rw [hct]
  simp only
  rw [if_neg (by decide)]
  rw [if_neg (by decide)]
  rw [if_pos (by decide)]
  have hrb : read_bytes [0x5E, b0, b1, b2, b3, 0x5F]
      ((PROPERTY_ACCESS_ERROR_SIZE : Nat) : Int) 1
      = (.ok [b0, b1, b2, b3], 5) := by
    unfold read_bytes PROPERTY_ACCESS_ERROR_SIZE
    norm_num
    simp
  rw [hrb]
  unfold mapRes
  simp only
  have hct2 : read_context_tag [0x5E, b0, b1, b2, b3, 0x5F] 5
      = (.ok (5, 7), 6) := by
    unfold read_context_tag read_tag read_byte
    simp [List.getD]
    rw [show ((0x5F : Nat) &&& 7) = 7 from rfl]
    norm_num
  rw [hct2]
  simp only
  rw [if_neg (by decide)]

/-- Counterexample to C2 as stated: two access-error payloads with
different raw bytes decode to the same value, the int 0, so the result
carries no AccessError with those four raw bytes (no such value exists
in the code). -/
theorem access_error_value_independent_cex :
    read_value [0x5E, 1, 2, 3, 4, 0x5F] Option.none 0 = (.ok (.int 0), 6) ∧
    read_value [0x5E, 9, 9, 9, 9, 0x5F] Option.none 0 = (.ok (.int 0), 6) := by
  constructor
  · exact access_error_consumes_four_bytes 1 2 3 4 Option.none
  · exact access_error_consumes_four_bytes 9 9 9 9 Option.none

/-- C7: write_access_spec emits, between the context tag 3 open and
close delimiters, exactly one application-tagged primitive: app tag 0
length 0 when the value is None (relinquish), app tag 4 with the four
big-endian IEEE-754 bytes for ANALOG_VALUE, app tag 9 with one byte for
BINARY_VALUE, app tag 2 with one byte for every other object type;
followed, when the priority is set, by context tag 4 length 1 with the
priority byte. -/
theorem write_access_spec_layout :
    ∀ (ot : ObjectType) (iid : Nat) (rvs : List ReadValue)
      (prio : Option Nat) (v : WriteValue),
    iid < 2 ^ 22 →
    (∀ x, v = some x → ot ≠ ObjectType.ANALOG_VALUE → x < 256) →
    (∀ p, prio = some p → p < 256) →
    write_access_spec ⟨ot, iid, rvs, prio⟩ v
      = .ok ([0x0C] ++ u32be (oidWord ⟨ot, iid, rvs, prio⟩)
          ++ [0x19, 0x55, 0x3E]
          ++ (match v with
              | Option.none => [0x00]
              | some x =>
                if ot = ObjectType.ANALOG_VALUE then [0x44] ++ u32be x
                else if ot = ObjectType.BINARY_VALUE then [0x91, x]
                else [0x21, x])
          ++ [0x3F]
          ++ (match prio with
              | Option.none => []
              | some p => [0x49, p])) := by
  intro ot iid rvs prio v hiid hv hp
  have hw : oidWord ⟨ot, iid, rvs, prio⟩ = ot.toNat * 2 ^ 22 + iid := by
    unfold oidWord TAG_OBJECT_TYPE_SHIFT
    exact lor_high_low _ _ _ hiid
  have hC := toNat_le ot
  have hw32 : oidWord ⟨ot, iid, rvs, prio⟩ < 2 ^ 32 := by
    rw [hw]
    have h32 : (2 : Nat) ^ 32 = 4294967296 := by norm_num
    have h22 : (2 : Nat) ^ 22 = 4194304 := by norm_num
    omega
  unfold write_access_spec apdu_object_identifier pack_u32
  rw [if_pos hw32]
  simp only
  cases v with
  | none =>
    simp only
    cases prio with
    | none =>
      simp [ctxTagInt, appTagInt, tagInt, ReadValue.toNat, TAG_OPEN, TAG_CLOSE]
    | some p =>
      have hp2 : p < 256 := hp p rfl
      simp only
      unfold pack_u8
      rw [if_pos hp2]
      simp [ctxTagInt, appTagInt, tagInt, ReadValue.toNat, TAG_OPEN, TAG_CLOSE]
  | some x =>
    simp only
    by_cases hA : ot = ObjectType.ANALOG_VALUE
    · rw [if_pos hA, if_pos hA]
      cases prio with
      | none =>
        simp [ctxTagInt, appTagInt, tagInt, ReadValue.toNat, TAG_OPEN, TAG_CLOSE]
      | some p =>
        have hp2 : p < 256 := hp p rfl
        simp only
        unfold pack_u8
        rw [if_pos hp2]
        simp [ctxTagInt, appTagInt, tagInt, ReadValue.toNat, TAG_OPEN, TAG_CLOSE]
    · have hx : x < 256 := hv x rfl hA
      rw [if_neg hA, if_neg hA]
      unfold pack_u8
      rw [if_pos hx]
      by_cases hB : ot = ObjectType.BINARY_VALUE
      · rw [if_pos hB, if_pos hB]
        simp only
        cases prio with
        | none =>
          simp [ctxTagInt, appTagInt, tagInt, ReadValue.toNat, TAG_OPEN, TAG_CLOSE]
        | some p =>
          have hp2 : p < 256 := hp p rfl
          simp only
          rw [if_pos hp2]
          simp [ctxTagInt, appTagInt, tagInt, ReadValue.toNat, TAG_OPEN, TAG_CLOSE]
      · rw [if_neg hB, if_neg hB]
        simp only
        cases prio with
        | none =>
          simp [ctxTagInt, appTagInt, tagInt, ReadValue.toNat, TAG_OPEN, TAG_CLOSE]
        | some p =>
          have hp2 : p < 256 := hp p rfl
          simp only
          rw [if_pos hp2]
          simp [ctxTagInt, appTagInt, tagInt, ReadValue.toNat, TAG_OPEN, TAG_CLOSE]

/-- Witness for C7 at the scenario ANALOG_VALUE 127, value 20.5
(IEEE-754 bits 0x41A40000), priority 16. -/
theorem write_access_spec_layout_witness :
    (127 : Nat) < 2 ^ 22 ∧
    write_access_spec ⟨ObjectType.ANALOG_VALUE, 127, [ReadValue.PRESENT_VALUE],
        some 16⟩ (some 0x41A40000)
      = .ok ([0x0C] ++ u32be (oidWord ⟨ObjectType.ANALOG_VALUE, 127,
            [ReadValue.PRESENT_VALUE], some 16⟩)
          ++ [0x19, 0x55, 0x3E]
          ++ ([0x44] ++ u32be 0x41A40000)
          ++ [0x3F] ++ [0x49, 16]) := by
  constructor
  · norm_num
  · have h := write_access_spec_layout ObjectType.ANALOG_VALUE 127
      [ReadValue.PRESENT_VALUE] (some 16) (some 0x41A40000)
      (by norm_num) (fun x hx hA => absurd rfl hA)
      (by intro p hp2; cases hp2; norm_num)
    simpa using h

/-- C5 as amended: every decoding operation leaves the cursor at or
after its starting position, whether it returns or raises — read_bytes
under the proviso that its count argument is nonnegative — and peek_tag
leaves the cursor exactly where it started.  (The proviso is necessary:
parse_string of a zero-length character string calls read_bytes with
count -1, which moves the cursor one byte backwards; parse_string as a
whole still never ends before its own start.) -/
theorem decoder_cursor_monotone :
    (∀ (data : List Nat) (i : Nat), i ≤ (read_byte data i).2) ∧
    (∀ (data : List Nat) (n : Int) (i : Nat), 0 ≤ n →
      i ≤ (read_bytes data n i).2) ∧
    (∀ (data : List Nat) (i : Nat), i ≤ (read_tag data i).2) ∧
    (∀ (data : List Nat) (i : Nat), (peek_tag data i).2 = i) ∧
    (∀ (data : List Nat) (i : Nat), i ≤ (read_context_tag data i).2) ∧
    (∀ (data : List Nat) (i : Nat), i ≤ (read_application_tag data i).2) ∧
    (∀ (data : List Nat) (i : Nat), i ≤ (parse_object_identifier data i).2) ∧
    (∀ (data : List Nat) (len i : Nat),
      i ≤ (parse_enumarated_value data len i).2) ∧
    (∀ (data : List Nat) (len i : Nat),
      i ≤ (parse_unsinged_int data len i).2) ∧
    (∀ (data : List Nat) (len i : Nat),
      i ≤ (parse_signed_int data len i).2) ∧
    (∀ (data : List Nat) (len i : Nat), i ≤ (parse_float data len i).2) ∧
    (∀ (data : List Nat) (len i : Nat), i ≤ (parse_double data len i).2) ∧
    (∀ (data : List Nat) (len i : Nat), i ≤ (parse_string data len i).2) ∧
    (∀ (data : List Nat) (len i : Nat),
      i ≤ (parse_application_object_identifier data len i).2) ∧
    (∀ (data : List Nat) (t l i : Nat),
      i ≤ (parse_value_element data t l i).2) ∧
    (∀ (data : List Nat) (o i : Nat),
      i ≤ (parse_priority_array data o i).2) ∧
    (∀ (data : List Nat) (p : Option Nat) (i : Nat),
      i ≤ (read_value data p i).2) ∧
    (∀ (data : List Nat) (i : Nat), i ≤ (parse_list_of_results data i).2) :=
  ⟨read_byte_snd_ge, read_bytes_snd_ge, read_tag_snd_ge, peek_tag_snd,
    read_context_tag_snd_ge, read_application_tag_snd_ge,
    parse_object_identifier_snd_ge, parse_enumarated_value_snd_ge,
    parse_unsinged_int_snd_ge, parse_signed_int_snd_ge, parse_float_snd_ge,
    parse_double_snd_ge, parse_string_snd_ge,
    parse_application_object_identifier_snd_ge, parse_value_element_snd_ge,
    parse_priority_array_snd_ge, read_value_snd_ge,
    parse_list_of_results_snd_ge⟩

/-- Witness for C5 discharging the nonnegative-count hypothesis of the
read_bytes conjunct at a concrete state. -/
theorem decoder_cursor_monotone_witness :
    (0 : Int) ≤ 1 ∧ (0 : Nat) ≤ (read_bytes [0x00] 1 0).2 :=
  ⟨by norm_num, decoder_cursor_monotone.2.1 [0x00] 1 0 (by norm_num)⟩

/-- Counterexample to C5 as stated: read_bytes with count -1 — reached
by parse_string for a zero-length character string, as the second
conjunct shows — moves the cursor from 2 back to 1. -/
theorem decoder_cursor_backward_cex :
    (read_bytes [0x70, 0x00] (-1) 2).2 < 2 ∧
    parse_string [0x70, 0x00] 0 1 = (.ok [], 1) := by
  constructor
  · decide
  · rfl

/-- The reply of every chunk read in order: the first failure aborts
with its exception, otherwise the list of all chunk replies. -/
def oracleResults (oracle : List DeviceProperty → Except PyErr DeviceState) :
    List (List DeviceProperty) → Except PyErr (List DeviceState)
  | [] => .ok []
  | c :: cs =>
    match oracle c with
    | .error e => .error e
    | .ok s =>
      match oracleResults oracle cs with
      | .error e => .error e
      | .ok rest => .ok (s :: rest)

theorem update_loop_eq_oracleResults
    (oracle : List DeviceProperty → Except PyErr DeviceState)
    (chunks : List (List DeviceProperty)) (st : DeviceState) :
    update_loop oracle chunks st
      = (oracleResults oracle chunks).map
          (fun states => states.foldl dictUpdate st) := by
  induction chunks generalizing st with
  | nil => rfl
  | cons c cs ih =>
    unfold update_loop oracleResults
    cases ho : oracle c with
    | error e => simp [Except.map]
    | ok s =>
      simp only
      rw [ih (dictUpdate st s)]
      cases hm : oracleResults oracle cs with
      | error e => simp [Except.map]
      | ok states => simp [Except.map]

/-- C9: if any chunk read of SiemensBACnet.update fails, the cached
DeviceState is left exactly as it was before the call; the cache is
replaced, wholesale, by the accumulated dict only when every chunk
succeeded. -/
theorem update_replaces_cache_atomically :
    ∀ (oracle : List DeviceProperty → Except PyErr DeviceState)
      (props : List DeviceProperty) (cache : Option DeviceState),
    (∀ e, oracleResults oracle (update_chunks props) = .error e →
      (update oracle props cache).1 = cache) ∧
    (∀ states, oracleResults oracle (update_chunks props) = .ok states →
      (update oracle props cache).1 = some (states.foldl dictUpdate [])) := by
  intro oracle props cache
  constructor
  · intro e he
    unfold update
    rw [update_loop_eq_oracleResults, he]
    simp [Except.map]
  · intro states hs
    unfold update
    rw [update_loop_eq_oracleResults, hs]
    simp [Except.map]

/-- Witness for C9: a failing oracle leaves the concrete cache intact;
an all-succeeding oracle replaces it with the accumulated state. -/
theorem update_replaces_cache_atomically_witness :
    ((update (fun _ => .error .decodingError)
        [⟨ObjectType.ANALOG_VALUE, 1, [ReadValue.PRESENT_VALUE], Option.none⟩]
        (some [((ObjectType.DEVICE, 5), [])])).1
      = some [((ObjectType.DEVICE, 5), [])]) ∧
    ((update (fun _ => .ok [])
        [⟨ObjectType.ANALOG_VALUE, 1, [ReadValue.PRESENT_VALUE], Option.none⟩]
        (some [((ObjectType.DEVICE, 5), [])])).1
      = some ([([] : DeviceState)].foldl dictUpdate [])) :=
  ⟨(update_replaces_cache_atomically _ _ _).1 .decodingError
      (by simp [update_chunks, oracleResults]),
    (update_replaces_cache_atomically _ _ _).2 [[]]
      (by simp [update_chunks, oracleResults])⟩

theorem unpack_u32_ne_four {bs : List Nat} (h : bs.length ≠ 4) :
    unpack_u32 bs = .error .structError := by
  unfold unpack_u32
  split
  · rename_i b0 b1 b2 b3
    simp at h
  · rfl

/-- Counterexample to C6 as stated: two of the listed malformations do
not raise DecodingError — a response truncated before the 4-byte BVLC
header raises struct.error from unpack, a response whose APDU part is
empty raises IndexError from the indexing, and a context-tagged object
identifier with declared length 3 raises struct.error from unpack
(parse_object_identifier has no length check; only the
application-tagged form does). -/
theorem truncated_header_raises_struct_error_cex :
    _parse_read_property_multiple_response [0x81] = .error .structError ∧
    _parse_read_property_multiple_response [0x81, 0x0A, 0, 0, 1, 4]
      = .error .indexError ∧
    parse_object_identifier [0x0B, 0, 0, 0] 0 = (.error .structError, 4) ∧
    PyErr.structError ≠ PyErr.decodingError ∧
    PyErr.indexError ≠ PyErr.decodingError :=
  ⟨rfl, rfl, rfl, by decide, by decide⟩

/-- C6 as amended: each listed malformation raises DecodingError and no
other error kind — wrong BVLC type or function, wrong APDU type, wrong
invoke id, wrong service choice, an unexpected tag (wrong tag class for
read_context_tag or read_application_tag, nonzero tag number for the
object identifier), a truncated buffer in read_byte or read_bytes, a
Real whose length is not 4, a Double whose length is not 8, an
application-tagged object identifier whose length is not 4, and a
character string whose encoding byte is not 0 — with three exceptions:
a response shorter than the 4-byte BVLC header raises struct.error, a
response with a valid 6-byte prefix but no APDU byte raises IndexError,
and a context-tagged object identifier whose declared length is not 4
raises struct.error from unpack (that length is checked only in
parse_application_object_identifier). -/
theorem malformed_inputs_raise_decoding_error :
    (∀ resp : List Nat, 4 ≤ resp.length →
      (resp.getD 0 0 ≠ BVLC_TYPE ∨ resp.getD 1 0 ≠ BVLC_FUNCTION_UNICAST) →
      _parse_read_property_multiple_response resp = .error .decodingError) ∧
    (∀ resp : List Nat, 4 ≤ resp.length →
      resp.getD 0 0 = BVLC_TYPE → resp.getD 1 0 = BVLC_FUNCTION_UNICAST →
      1 ≤ (resp.drop 6).length → (resp.drop 6).getD 0 0 >>> 4 ≠ 3 →
      _parse_read_property_multiple_response resp = .error .decodingError) ∧
    (∀ resp : List Nat, 4 ≤ resp.length →
      resp.getD 0 0 = BVLC_TYPE → resp.getD 1 0 = BVLC_FUNCTION_UNICAST →
      2 ≤ (resp.drop 6).length → (resp.drop 6).getD 0 0 >>> 4 = 3 →
      (resp.drop 6).getD 1 0 ≠ INVOKE_ID →
      _parse_read_property_multiple_response resp = .error .decodingError) ∧
    (∀ resp : List Nat, 4 ≤ resp.length →
      resp.getD 0 0 = BVLC_TYPE → resp.getD 1 0 = BVLC_FUNCTION_UNICAST →
      3 ≤ (resp.drop 6).length → (resp.drop 6).getD 0 0 >>> 4 = 3 →
      (resp.drop 6).getD 1 0 = INVOKE_ID → (resp.drop 6).getD 2 0 ≠ 14 →
      _parse_read_property_multiple_response resp = .error .decodingError) ∧
    (∀ (data : List Nat) (i n c l j : Nat),
      read_tag data i = (.ok (n, c, l), j) → c ≠ 1 →
      read_context_tag data i = (.error .decodingError, j)) ∧
    (∀ (data : List Nat) (i n c l j : Nat),
      read_tag data i = (.ok (n, c, l), j) → c ≠ 0 →
      read_application_tag data i = (.error .decodingError, j)) ∧
    (∀ (data : List Nat) (i n l j : Nat),
      read_context_tag data i = (.ok (n, l), j) → n ≠ 0 →
      parse_object_identifier data i = (.error .decodingError, j)) ∧
    (∀ (data : List Nat) (i : Nat), data.length < i + 1 →
      read_byte data i = (.error .decodingError, i)) ∧
    (∀ (data : List Nat) (n i : Nat), data.length < i + n →
      read_bytes data (n : Int) i = (.error .decodingError, i)) ∧
    (∀ (data : List Nat) (len i : Nat), len ≠ 4 →
      parse_float data len i = (.error .decodingError, i)) ∧
    (∀ (data : List Nat) (len i : Nat), len ≠ 8 →
      parse_double data len i = (.error .decodingError, i)) ∧
    (∀ (data : List Nat) (len i : Nat), len ≠ 4 →
      parse_application_object_identifier data len i
        = (.error .decodingError, i)) ∧
    (∀ (data : List Nat) (len i b j : Nat),
      read_byte data i = (.ok b, j) → b ≠ 0 →
      parse_string data len i = (.error .decodingError, j)) ∧
    (∀ resp : List Nat, resp.length < 4 →
      _parse_read_property_multiple_response resp = .error .structError) ∧
    (∀ resp : List Nat, 4 ≤ resp.length →
      resp.getD 0 0 = BVLC_TYPE → resp.getD 1 0 = BVLC_FUNCTION_UNICAST →
      (resp.drop 6).length < 1 →
      _parse_read_property_multiple_response resp = .error .indexError) ∧
    (∀ (data : List Nat) (i l j : Nat),
      read_context_tag data i = (.ok (0, l), j) → l ≠ 4 →
      j + l ≤ data.length →
      parse_object_identifier data i = (.error .structError, j + l)) := by
  refine ⟨?_, ?_, ?_, ?_, ?_, ?_, ?_, ?_, ?_, ?_, ?_, ?_, ?_, ?_, ?_, ?_⟩
  · intro resp hlen hbad
    unfold _parse_read_property_multiple_response
    rw [if_neg (by omega), if_pos hbad]
  · intro resp hlen h0 h1 hap htype
    unfold _parse_read_property_multiple_response
    rw [if_neg (by omega)]
    rw [if_neg (not_or.mpr ⟨fun hh => hh h0, fun hh => hh h1⟩)]
    simp only [show BVLC_LENGTH + NPDU.length = 6 from rfl]
    rw [if_neg (by omega), if_pos htype]
  · intro resp hlen h0 h1 hap htype hinv
    unfold _parse_read_property_multiple_response
    rw [if_neg (by omega)]
    rw [if_neg (not_or.mpr ⟨fun hh => hh h0, fun hh => hh h1⟩)]
    simp only [show BVLC_LENGTH + NPDU.length = 6 from rfl]
    rw [if_neg (by omega), if_neg (fun hne => hne htype), if_neg (by omega),
      if_pos hinv]
  · intro resp hlen h0 h1 hap htype hinv hsvc
    unfold _parse_read_property_multiple_response
    rw [if_neg (by omega)]
    rw [if_neg (not_or.mpr ⟨fun hh => hh h0, fun hh => hh h1⟩)]
    simp only [show BVLC_LENGTH + NPDU.length = 6 from rfl]
    rw [if_neg (by omega), if_neg (fun hne => hne htype), if_neg (by omega),
      if_neg (fun hne => hne hinv), if_neg (by omega), if_pos hsvc]
  · intro data i n c l j ht hc
    unfold read_context_tag
    rw [ht]
    simp only
    rw [if_pos hc]
  · intro data i n c l j ht hc
    unfold read_application_tag
    rw [ht]
    simp only
    rw [if_pos hc]
  · intro data i n l j hct hn
    unfold parse_object_identifier
    rw [hct]
    simp only
    rw [if_pos hn]
  · intro data i hlen
    unfold read_byte
    rw [if_pos (by omega)]
  · intro data n i hlen
    unfold read_bytes
    rw [if_pos (by omega)]
  · intro data len i hlen
    unfold parse_float
    rw [if_pos hlen]
  · intro data len i hlen
    unfold parse_double
    rw [if_pos hlen]
  · intro data len i hlen
    unfold parse_application_object_identifier
    rw [if_pos hlen]
  · intro data len i b j hb hbne
    unfold parse_string
    rw [hb]
    simp only
    rw [if_pos hbne]
  · intro resp hlen
    unfold _parse_read_property_multiple_response
    rw [if_pos hlen]
  · intro resp hlen h0 h1 hap
    unfold _parse_read_property_multiple_response
    rw [if_neg (by omega)]
    rw [if_neg (not_or.mpr ⟨fun hh => hh h0, fun hh => hh h1⟩)]
    simp only [show BVLC_LENGTH + NPDU.length = 6 from rfl]
    rw [if_pos hap]
  · intro data i l j hct hl hjl
    unfold parse_object_identifier
    rw [hct]
    simp only
    rw [if_neg (fun hh => hh rfl)]
    have hrb : read_bytes data ((l : Nat) : Int) j
        = (.ok ((data.drop j).take l), j + l) := by
      unfold read_bytes
      rw [if_neg (by omega)]
      simp
      omega
    rw [hrb]
    simp only
    have hlen2 : ((data.drop j).take l).length = l := by
      simp [List.length_take, List.length_drop]
      omega
    rw [unpack_u32_ne_four (by rw [hlen2]; exact hl)]

/-- Witness for C6 instantiating every conjunct at a concrete
malformed input. -/
theorem malformed_inputs_witness :
    (_parse_read_property_multiple_response [0, 0, 0, 0]
      = .error .decodingError) ∧
    (_parse_read_property_multiple_response [0x81, 0x0A, 0, 0, 1, 4, 0x20]
      = .error .decodingError) ∧
    (_parse_read_property_multiple_response [0x81, 0x0A, 0, 0, 1, 4, 0x30, 9]
      = .error .decodingError) ∧
    (_parse_read_property_multiple_response
        [0x81, 0x0A, 0, 0, 1, 4, 0x30, 1, 15]
      = .error .decodingError) ∧
    (read_context_tag [0x00] 0 = (.error .decodingError, 1)) ∧
    (read_application_tag [0x08] 0 = (.error .decodingError, 1)) ∧
    (parse_object_identifier [0x18] 0 = (.error .decodingError, 1)) ∧
    (read_byte [] 0 = (.error .decodingError, 0)) ∧
    (read_bytes [] ((1 : Nat) : Int) 0 = (.error .decodingError, 0)) ∧
    (parse_float [] 3 0 = (.error .decodingError, 0)) ∧
    (parse_double [] 3 0 = (.error .decodingError, 0)) ∧
    (parse_application_object_identifier [] 3 0
      = (.error .decodingError, 0)) ∧
    (parse_string [5] 2 0 = (.error .decodingError, 1)) ∧
    (_parse_read_property_multiple_response [0x81] = .error .structError) ∧
    (_parse_read_property_multiple_response [0x81, 0x0A, 0, 0, 1, 4]
      = .error .indexError) ∧
    (parse_object_identifier [0x0B, 0, 0, 0] 0
      = (.error .structError, 4)) := by
  obtain ⟨c1, c2, c3, c4, c5, c6, c7, c8, c9, c10, c11, c12, c13,
    c14, c15, c16⟩ := malformed_inputs_raise_decoding_error
  refine ⟨?_, ?_, ?_, ?_, ?_, ?_, ?_, ?_, ?_, ?_, ?_, ?_, ?_, ?_, ?_, ?_⟩
  · exact c1 [0, 0, 0, 0] (by norm_num) (by norm_num [BVLC_TYPE])
  · exact c2 [0x81, 0x0A, 0, 0, 1, 4, 0x20] (by norm_num) rfl rfl
      (by norm_num) (by decide)
  · exact c3 [0x81, 0x0A, 0, 0, 1, 4, 0x30, 9] (by norm_num) rfl rfl
      (by norm_num) (by decide) (by decide)
  · exact c4 [0x81, 0x0A, 0, 0, 1, 4, 0x30, 1, 15] (by norm_num) rfl rfl
      (by norm_num) (by decide) (by decide) (by decide)
  · exact c5 [0x00] 0 0 0 0 1 rfl (by norm_num)
  · exact c6 [0x08] 0 0 1 0 1 rfl (by norm_num)
  · exact c7 [0x18] 0 1 0 1 rfl (by norm_num)
  · exact c8 [] 0 (by norm_num)
  · exact c9 [] 1 0 (by norm_num)
  · exact c10 [] 3 0 (by norm_num)
  · exact c11 [] 3 0 (by norm_num)
  · exact c12 [] 3 0 (by norm_num)
  · exact c13 [5] 2 0 5 1 rfl (by norm_num)
  · exact c14 [0x81] (by norm_num)
  · exact c15 [0x81, 0x0A, 0, 0, 1, 4] (by norm_num) rfl rfl (by norm_num)
  · exact c16 [0x0B, 0, 0, 0] 0 3 1 rfl (by norm_num) (by norm_num)

/-- The application-tagged primitives a priorityValue slot can carry in
this client's grammar (the value tags of the decoder that consume
exactly their declared content): Null, Boolean, UnsignedInt, SignedInt,
Real and Enumerated, each with its content bytes. -/
inductive AppPrim where
  | null
  | boolean (b : Bool)
  | uint (bs : List Nat)
  | sint (bs : List Nat)
  | real (bs : List Nat)
  | enum (bs : List Nat)

/-- Wire sanity of one primitive: content lengths fit the 3-bit length
field without the extended-length escape 5, and obey the decoder's
checks (Real exactly 4 bytes, SignedInt nonempty). -/
def AppPrim.wf : AppPrim → Prop
  | .null => True
  | .boolean _ => True
  | .uint bs => bs.length ≤ 4
  | .sint bs => 1 ≤ bs.length ∧ bs.length ≤ 4
  | .real bs => bs.length = 4
  | .enum bs => bs.length ≤ 4

/-- The application tag number of the primitive. -/
def AppPrim.tag : AppPrim → Nat
  | .null => 0
  | .boolean _ => 1
  | .uint _ => 2
  | .sint _ => 3
  | .real _ => 4
  | .enum _ => 9

/-- The length-or-value bits of the tag byte. -/
def AppPrim.lvt : AppPrim → Nat
  | .null => 0
  | .boolean b => if b then 1 else 0
  | .uint bs => bs.length
  | .sint bs => bs.length
  | .real _ => 4
  | .enum bs => bs.length

/-- The content bytes following the tag byte. -/
def AppPrim.content : AppPrim → List Nat
  | .null => []
  | .boolean _ => []
  | .uint bs => bs
  | .sint bs => bs
  | .real bs => bs
  | .enum bs => bs

/-- The wire encoding of one primitive: its application tag byte then
its content bytes. -/
def AppPrim.enc (p : AppPrim) : List Nat :=
  appTagInt p.tag p.lvt :: p.content

/-- The value the decoder yields for the primitive (unsigned and
enumerated as the big-endian byte fold, signed as big-endian two's
complement). -/
def AppPrim.val : AppPrim → Val
  | .null => .null
  | .boolean b => .bool b
  | .uint bs => .int (bs.foldl (fun acc b => acc <<< 8 ||| b) 0 : Nat)
  | .sint bs =>
    .int (if beVal bs &&& (1 <<< (bs.length * 8 - 1)) ≠ 0
      then (beVal bs : Int) - 2 ^ (bs.length * 8) else (beVal bs : Int))
  | .real bs => .real bs
  | .enum bs => .int (bs.foldl (fun acc b => acc <<< 8 ||| b) 0 : Nat)

theorem AppPrim.lvt_le {p : AppPrim} (h : p.wf) : p.lvt ≤ 7 := by
  cases p with
  | boolean b => cases b <;> simp [AppPrim.lvt]
  | null => simp [AppPrim.lvt]
  | uint bs => simp [AppPrim.wf] at h; simp [AppPrim.lvt]; omega
  | sint bs => simp [AppPrim.wf] at h; simp [AppPrim.lvt]; omega
  | real bs => simp [AppPrim.lvt]
  | enum bs => simp [AppPrim.wf] at h; simp [AppPrim.lvt]; omega

theorem AppPrim.lvt_ne_five {p : AppPrim} (h : p.wf) : p.lvt ≠ 5 := by
  cases p with
  | boolean b => cases b <;> simp [AppPrim.lvt]
  | null => simp [AppPrim.lvt]
  | uint bs => simp [AppPrim.wf] at h; simp [AppPrim.lvt]; omega
  | sint bs => simp [AppPrim.wf] at h; simp [AppPrim.lvt]; omega
  | real bs => simp [AppPrim.lvt]
  | enum bs => simp [AppPrim.wf] at h; simp [AppPrim.lvt]; omega

theorem appTagInt_eq (t l : Nat) (hl : l ≤ 7) :
    appTagInt t l = 16 * t + l := by
  show t <<< 4 ||| 0 ||| l = 16 * t + l
  have h0 : t <<< 4 ||| 0 = t <<< 4 := by
    rw [lor_high_low t 0 4 (by norm_num), Nat.shiftLeft_eq]
    norm_num
  rw [h0, lor_high_low t l 4 (by norm_num; omega)]
  ring

theorem drop_add_of_drop {data : List Nat} (bs : List Nat) {i : Nat}
    {rest : List Nat} (h : data.drop i = bs ++ rest) :
    data.drop (i + bs.length) = rest := by
  induction bs generalizing i with
  | nil => simpa using h
  | cons b bs ih =>
    have h1 : data.drop (i + 1) = bs ++ rest :=
      drop_succ_of_drop (by simpa using h)
    have := ih h1
    simpa [Nat.add_assoc, Nat.add_comm 1 bs.length] using this

theorem read_bytes_drop {data : List Nat} (bs : List Nat) {i : Nat}
    {rest : List Nat} (h : data.drop i = bs ++ rest)
    (hi : i ≤ data.length) :
    read_bytes data ((bs.length : Nat) : Int) i = (.ok bs, i + bs.length) := by
  have hlen : data.length - i = bs.length + rest.length := by
    rw [← List.length_drop, h]
    simp
  unfold read_bytes
  rw [if_neg (by omega)]
  have h1 : ((i : Int) + bs.length).toNat = i + bs.length := by omega
  have h2 : (data.drop i).take ((bs.length : Nat) : Int).toNat = bs := by
    simp [h, List.take_left]
  rw [h1, h2]

theorem parse_uint_loop_drop {data : List Nat} (bs : List Nat) (v : Nat)
    {i : Nat} {rest : List Nat} (h : data.drop i = bs ++ rest) :
    parse_uint_loop data bs.length v i
      = (.ok (bs.foldl (fun acc b => acc <<< 8 ||| b) v), i + bs.length) := by
  induction bs generalizing v i with
  | nil => simp [parse_uint_loop]
  | cons b bs ih =>
    have hb : read_byte data i = (.ok b, i + 1) :=
      read_byte_drop (by simpa using h)
    have h1 : data.drop (i + 1) = bs ++ rest :=
      drop_succ_of_drop (by simpa using h)
    show parse_uint_loop data (bs.length + 1) v i = _
    unfold parse_uint_loop
    rw [hb]
    simp only
    rw [ih (v <<< 8 ||| b) h1]
    simp [List.foldl_cons]
    omega

theorem read_tag_app {data : List Nat} {i : Nat} {t l : Nat}
    {rest : List Nat} (hl : l ≤ 7) (hl5 : l ≠ 5)
    (h : data.drop i = appTagInt t l :: rest) :
    read_tag data i = (.ok (t, 0, l), i + 1) := by
  have hb : read_byte data i = (.ok (appTagInt t l), i + 1) := read_byte_drop h
  unfold read_tag
  rw [hb]
  simp only
  rw [appTagInt_eq t l hl]
  have h7 : (16 * t + l) &&& 7 = l := by
    have hm : (7 : Nat) = 2 ^ 3 - 1 := by norm_num
    rw [hm, Nat.and_pow_two_sub_one_eq_mod]
    omega
  rw [h7, if_neg hl5]
  have h4 : (16 * t + l) >>> 4 = t := by
    rw [Nat.shiftRight_eq_div_pow]
    omega
  have h3 : ((16 * t + l) >>> 3) &&& 1 = 0 := by
    rw [Nat.shiftRight_eq_div_pow, Nat.and_one_is_mod]
    omega
  rw [h4, h3]

theorem read_application_tag_app {data : List Nat} {i : Nat} {t l : Nat}
    {rest : List Nat} (hl : l ≤ 7) (hl5 : l ≠ 5)
    (h : data.drop i = appTagInt t l :: rest) :
    read_application_tag data i = (.ok (t, l), i + 1) := by
  unfold read_application_tag
  rw [read_tag_app hl hl5 h]
  simp

/-- One well-formed primitive decodes to its value, consuming exactly
its content bytes. -/
theorem parse_value_element_enc (p : AppPrim) (hwf : p.wf)
    {data : List Nat} {i : Nat} {rest : List Nat}
    (h : data.drop i = p.content ++ rest) (hi : i ≤ data.length) :
    parse_value_element data p.tag p.lvt i
      = (.ok p.val, i + p.content.length) := by
  cases p with
  | null =>
    unfold parse_value_element
    simp [AppPrim.tag, AppPrim.lvt, AppPrim.val, AppPrim.content]
  | boolean b =>
    unfold parse_value_element
    cases b <;>
      simp [AppPrim.tag, AppPrim.lvt, AppPrim.val, AppPrim.content]
  | uint bs =>
    unfold parse_value_element
    simp only [AppPrim.tag, AppPrim.lvt, AppPrim.val, AppPrim.content] at h ⊢
    norm_num
    unfold parse_unsinged_int
    rw [parse_uint_loop_drop bs 0 h]
    rfl
  | sint bs =>
    unfold parse_value_element
    simp only [AppPrim.tag, AppPrim.lvt, AppPrim.val, AppPrim.content] at h ⊢
    norm_num
    unfold parse_signed_int
    rw [read_bytes_drop bs h hi]
    simp only
    rw [if_neg (show ¬ bs.length = 0 by
      simp [AppPrim.wf] at hwf; omega)]
    by_cases hc : beVal bs &&& 1 <<< (bs.length * 8 - 1) ≠ 0
    · simp only [if_pos hc, if_neg hc]
      rfl
    · simp only [if_neg hc, if_pos (not_not.mp hc)]
      rfl
  | real bs =>
    unfold parse_value_element
    simp only [AppPrim.tag, AppPrim.lvt, AppPrim.val, AppPrim.content] at h ⊢
    norm_num
    unfold parse_float
    rw [if_neg (by norm_num)]
    have hb4 : bs.length = 4 := hwf
    rw [show ((4 : Nat) : Int) = ((bs.length : Nat) : Int) by rw [hb4]]
    rw [read_bytes_drop bs h hi]
    rfl
  | enum bs =>
    unfold parse_value_element
    simp only [AppPrim.tag, AppPrim.lvt, AppPrim.val, AppPrim.content] at h ⊢
    norm_num
    unfold parse_enumarated_value
    rw [parse_uint_loop_drop bs 0 h]
    rfl

/-- A propertyValue payload of well-formed application-tagged
primitives terminated by the closing context tag 4 decodes to one Val
per primitive, consuming exactly the encodings. -/
theorem parse_priority_array_payload (ps : List AppPrim) :
    ∀ (data : List Nat) (i : Nat) (rest : List Nat),
    (∀ p ∈ ps, p.wf) →
    data.drop i = ps.flatMap AppPrim.enc ++ 0x4F :: rest →
    parse_priority_array data 4 i
      = (.ok (ps.map AppPrim.val),
          i + (ps.flatMap AppPrim.enc).length) := by
  induction ps with
  | nil =>
    intro data i rest hwf h
    have hb : read_byte data i = (.ok 0x4F, i + 1) :=
      read_byte_drop (by simpa using h)
    have ht : read_tag data i = (.ok (4, 1, 7), i + 1) := by
      unfold read_tag
      rw [hb]
      simp only
      rw [show ((0x4F : Nat) &&& 7) = 7 from rfl]
      norm_num
      decide
    unfold parse_priority_array
    rw [show peek_tag data i = ((read_tag data i).1, i) from rfl, ht]
    simp only
    rw [if_pos (by decide)]
    simp
  | cons p ps ih =>
    intro data i rest hwf h
    have hwfp : p.wf := hwf p (by simp)
    have hwfs : ∀ q ∈ ps, q.wf := fun q hq => hwf q (by simp [hq])
    have hd : data.drop i
        = appTagInt p.tag p.lvt
          :: (p.content ++ (ps.flatMap AppPrim.enc ++ 0x4F :: rest)) := by
      simpa [AppPrim.enc, List.append_assoc] using h
    have ht := read_tag_app (AppPrim.lvt_le hwfp) (AppPrim.lvt_ne_five hwfp) hd
    have hat := read_application_tag_app (AppPrim.lvt_le hwfp)
      (AppPrim.lvt_ne_five hwfp) hd
    have hd1 : data.drop (i + 1)
        = p.content ++ (ps.flatMap AppPrim.enc ++ 0x4F :: rest) :=
      drop_succ_of_drop hd
    have hi : i < data.length := drop_len_pos hd
    have hv := parse_value_element_enc p hwfp hd1 (by omega)
    have hd2 : data.drop (i + 1 + p.content.length)
        = ps.flatMap AppPrim.enc ++ 0x4F :: rest :=
      drop_add_of_drop p.content hd1
    unfold parse_priority_array
    rw [show peek_tag data i = ((read_tag data i).1, i) from rfl, ht]
    simp only
    rw [if_neg (fun hc => absurd hc.1 (by decide))]
    rw [hat]
    simp only
    rw [hv]
    simp only
    rw [ih data (i + 1 + p.content.length) rest hwfs hd2]
    simp only [List.map_cons, List.flatMap_cons, List.length_append,
      AppPrim.enc, List.length_cons, Prod.mk.injEq]
    exact ⟨trivial, by omega⟩

/-- read_value on a priorityValue property (id 87) whose propertyValue
wrapper holds a payload of well-formed application-tagged primitives:
the result is the priority array of their values, one per primitive. -/
theorem read_value_priority_payload (ps : List AppPrim)
    (hwf : ∀ p ∈ ps, p.wf) :
    read_value ([0x4E] ++ ps.flatMap AppPrim.enc ++ [0x4F]) (some 87) 0
      = (.ok (.priorityArray (ps.map AppPrim.val)),
          (ps.flatMap AppPrim.enc).length + 2) := by
  generalize hdata :
    ([0x4E] ++ ps.flatMap AppPrim.enc ++ [0x4F] : List Nat) = data
  have hd0 : data.drop 0
      = 0x4E :: (ps.flatMap AppPrim.enc ++ [0x4F]) := by
    rw [← hdata]; simp
  have hb := read_byte_drop hd0
  have ht : read_tag data 0 = (.ok (4, 1, 6), 1) := by
    unfold read_tag
    rw [hb]
    simp only
    rw [show ((0x4E : Nat) &&& 7) = 6 from rfl]
    norm_num
    decide
  have hct : read_context_tag data 0 = (.ok (4, 6), 1) := by
    unfold read_context_tag
    rw [ht]
    simp
  unfold read_value
  rw [hct]
  simp only
  rw [if_neg (by decide)]
  rw [if_pos (by decide)]
  rw [if_pos (by decide)]
  have hd1 : data.drop 1 = ps.flatMap AppPrim.enc ++ 0x4F :: [] := by
    have := drop_succ_of_drop hd0
    simpa using this
  rw [parse_priority_array_payload ps data 1 [] hwf hd1]
  unfold mapRes
  simp only
  have hdk : data.drop (1 + (ps.flatMap AppPrim.enc).length)
      = [0x4F] := by
    have := drop_add_of_drop (ps.flatMap AppPrim.enc) hd1
    simpa using this
  have hb2 := read_byte_drop hdk
  have ht2 : read_tag data (1 + (ps.flatMap AppPrim.enc).length)
      = (.ok (4, 1, 7), 1 + (ps.flatMap AppPrim.enc).length + 1) := by
    unfold read_tag
    rw [hb2]
    simp only
    rw [show ((0x4F : Nat) &&& 7) = 7 from rfl]
    norm_num
    decide
  have hct2 : read_context_tag data (1 + (ps.flatMap AppPrim.enc).length)
      = (.ok (4, 7), 1 + (ps.flatMap AppPrim.enc).length + 1) := by
    unfold read_context_tag
    rw [ht2]
    simp
  rw [hct2]
  simp only
  rw [if_neg (by decide)]
  congr 1
  omega

/-- C1 as amended: the list returned for a priorityValue property
contains exactly one element per application-tagged primitive in the
propertyValue payload — for any payload of well-formed primitives
(Null, Boolean, UnsignedInt, SignedInt, Real, Enumerated) terminated
by the closing context tag 4, read_value at property id 87 returns the
priority array of their decoded values, one per primitive; in
particular an all-Null payload of k Nulls decodes to exactly k Nulls.
The decoder does not enforce, pad or truncate to 16 — 16 elements come
out exactly when the device sent 16. -/
theorem priority_array_one_element_per_primitive :
    (∀ ps : List AppPrim, (∀ p ∈ ps, p.wf) →
      read_value ([0x4E] ++ ps.flatMap AppPrim.enc ++ [0x4F])
          (some 87) 0
        = (.ok (.priorityArray (ps.map AppPrim.val)),
            (ps.flatMap AppPrim.enc).length + 2) ∧
      (ps.map AppPrim.val).length = ps.length) ∧
    (∀ k : Nat,
      read_value ([0x4E] ++ List.replicate k 0 ++ [0x4F]) (some 87) 0
        = (.ok (.priorityArray (List.replicate k Val.null)), k + 2) ∧
      (List.replicate k Val.null).length = k) :=
  ⟨fun ps hwf => ⟨read_value_priority_payload ps hwf, by simp⟩,
   fun k => ⟨read_value_priority_nulls k, by simp⟩⟩

/-- Witness for C1 at a mixed 16-slot payload: seven Nulls, a Real at
slot 8 (bytes 41 B0 00 00, the bit pattern of 22.0), eight Nulls; the
decoded list has one element per primitive, sixteen in all. -/
theorem priority_array_one_element_per_primitive_witness :
    read_value [0x4E, 0, 0, 0, 0, 0, 0, 0, 0x44, 0x41, 0xB0, 0, 0,
        0, 0, 0, 0, 0, 0, 0, 0, 0x4F] (some 87) 0
      = (.ok (.priorityArray [Val.null, Val.null, Val.null, Val.null,
          Val.null, Val.null, Val.null, Val.real [0x41, 0xB0, 0, 0],
          Val.null, Val.null, Val.null, Val.null, Val.null, Val.null,
          Val.null, Val.null]), 22) ∧
    ([Val.null, Val.null, Val.null, Val.null, Val.null, Val.null,
      Val.null, Val.real [0x41, 0xB0, 0, 0], Val.null, Val.null,
      Val.null, Val.null, Val.null, Val.null, Val.null,
      Val.null] : List Val).length = 16 := by
  have h := priority_array_one_element_per_primitive.1
    ([.null, .null, .null, .null, .null, .null, .null,
      .real [0x41, 0xB0, 0, 0], .null, .null, .null, .null,
      .null, .null, .null, .null]) (by simp [AppPrim.wf])
  exact ⟨h.1, rfl⟩

end Bacnet
